import Mathlib

/-!
Verification development for the AutoIngest batch OBJ importer
(`auto_ingest.py`).  The Python source is shallowly embedded in Lean:

* geometry is modelled over `ℚ` (the Python code uses IEEE floats; the
  spec's "within tolerance" clauses are read as the exact-arithmetic
  idealisation, so tolerance becomes equality over `ℚ`);
* Blender's mutable scene state (`bpy.data.objects`,
  `bpy.data.collections`, the view layer, the scene root collection)
  becomes an explicit `Scene` record threaded through the functions;
* an object's `matrix_world` is the Blender loc/rot/scale decomposition
  `T(location) * R * S(scale)` applied to local coordinates; objects are
  unparented when the pipeline consults their transforms (imported
  objects are), so no parent matrix appears;
* `obj.bound_box` is the 8-corner axis-aligned local bounding box of the
  mesh vertices (for a vertex-free object it degenerates to eight copies
  of the origin, giving a zero extent, which is how the code's
  "size 0 → skip" branches fire);
* Blender keeps object and collection names unique within `bpy.data`;
  the model identifies objects and collections by name and the pipeline
  maintains collection-name uniqueness explicitly;
* the external OBJ importer (`bpy.ops.wm.obj_import`) is an oracle: the
  list of objects a file's import yields is an input of the model;
* the view-layer `layer_collection` tree mirrors the collection
  hierarchy; every collection the add-on creates is linked directly
  under the scene root and has no children, so
  `find_layer_collection` + `exclude` is modelled as a lookup of the
  (unique) collection name with a `visible` flag (`visible = ¬exclude`),
  and `delete_collection_recursive` on such a collection has no child
  recursion to perform;
* exceptions become `Except String`; Python's `try/except` around the
  per-file pipeline in `modal` becomes a `match` on that result.
-/

namespace AutoIngest

/-- A 3-component vector (`mathutils.Vector`) over exact rationals. -/
structure Vec3 where
  x : ℚ
  y : ℚ
  z : ℚ
deriving Repr, DecidableEq

namespace Vec3

def zero : Vec3 := ⟨0, 0, 0⟩

def add (a b : Vec3) : Vec3 := ⟨a.x + b.x, a.y + b.y, a.z + b.z⟩

def sub (a b : Vec3) : Vec3 := ⟨a.x - b.x, a.y - b.y, a.z - b.z⟩

/-- Componentwise (Hadamard) product: the action of a diagonal scale
matrix built from `a` on the point `b`. -/
def hadamard (a b : Vec3) : Vec3 := ⟨a.x * b.x, a.y * b.y, a.z * b.z⟩

/-- `Vector * scalar` (used for `obj.scale *= factor`). -/
def smul (a : Vec3) (q : ℚ) : Vec3 := ⟨a.x * q, a.y * q, a.z * q⟩

end Vec3

/-- A 3×3 linear map, kept as three rows.  It stands for the rotation
part of an object's transform; none of the proofs need orthogonality,
so an arbitrary linear part is modelled. -/
structure Mat3 where
  r0 : Vec3
  r1 : Vec3
  r2 : Vec3
deriving Repr, DecidableEq

namespace Mat3

def app (m : Mat3) (v : Vec3) : Vec3 :=
  ⟨m.r0.x * v.x + m.r0.y * v.y + m.r0.z * v.z,
   m.r1.x * v.x + m.r1.y * v.y + m.r1.z * v.z,
   m.r2.x * v.x + m.r2.y * v.y + m.r2.z * v.z⟩

def id : Mat3 := ⟨⟨1, 0, 0⟩, ⟨0, 1, 0⟩, ⟨0, 0, 1⟩⟩

end Mat3

/-- `min` of a nonempty Python iterable; the `[]` default is never hit by
the code paths (the bounding box always has 8 corners) and only serves
totality. -/
def listMin : List ℚ → ℚ
  | [] => 0
  | x :: xs => xs.foldl min x

/-- `max` of a nonempty Python iterable, as `listMin`. -/
def listMax : List ℚ → ℚ
  | [] => 0
  | x :: xs => xs.foldl max x

/-- A `bpy.types.Object`: the fields of the Blender object the add-on
reads or writes.  `objType` is `obj.type` (`"MESH"`, `"EMPTY"`, …),
`hasData` is `obj.data is not None`, `verts` the mesh vertex
coordinates, `location`/`rot`/`scale` the loc/rot/scale transform
decomposition, `parent` the parent object's name.
`emptyDisplayType` is `obj.empty_display_type`. -/
structure Obj where
  name : String
  objType : String
  hasData : Bool
  verts : List Vec3
  location : Vec3
  rot : Mat3
  scale : Vec3
  parent : Option String
  emptyDisplayType : String
deriving Repr, DecidableEq

namespace Obj

/-- Local-space axis-aligned bounding box corners (`obj.bound_box`).
Blender stores the 8 corners of the per-axis min/max box of the mesh;
for a vertex-free object the box degenerates to the origin. -/
def boundBox (o : Obj) : List Vec3 :=
  if o.verts = [] then List.replicate 8 Vec3.zero
  else
    let mnx := listMin (o.verts.map Vec3.x)
    let mxx := listMax (o.verts.map Vec3.x)
    let mny := listMin (o.verts.map Vec3.y)
    let mxy := listMax (o.verts.map Vec3.y)
    let mnz := listMin (o.verts.map Vec3.z)
    let mxz := listMax (o.verts.map Vec3.z)
    [⟨mnx, mny, mnz⟩, ⟨mnx, mny, mxz⟩, ⟨mnx, mxy, mnz⟩, ⟨mnx, mxy, mxz⟩,
     ⟨mxx, mny, mnz⟩, ⟨mxx, mny, mxz⟩, ⟨mxx, mxy, mnz⟩, ⟨mxx, mxy, mxz⟩]

/-- `obj.matrix_world @ v` for an unparented object:
translate ∘ rotate ∘ scale. -/
def matrixWorld (o : Obj) (v : Vec3) : Vec3 :=
  (o.rot.app (o.scale.hadamard v)).add o.location

end Obj

/-- `bbox_world = [obj.matrix_world @ Vector(c) for c in obj.bound_box]`. -/
def worldBBox (o : Obj) : List Vec3 := o.boundBox.map o.matrixWorld

/-- `dims[0] = maxs[0] - mins[0]` of `get_longest_axis_size`. -/
def dimX (o : Obj) : ℚ :=
  listMax ((worldBBox o).map Vec3.x) - listMin ((worldBBox o).map Vec3.x)

/-- `dims[1]` of `get_longest_axis_size`. -/
def dimY (o : Obj) : ℚ :=
  listMax ((worldBBox o).map Vec3.y) - listMin ((worldBBox o).map Vec3.y)

/-- `dims[2]` of `get_longest_axis_size`. -/
def dimZ (o : Obj) : ℚ :=
  listMax ((worldBBox o).map Vec3.z) - listMin ((worldBBox o).map Vec3.z)

/-- `get_longest_axis_size(obj)`: world-space bounding-box corners,
per-axis min/max (`worldBBox`), per-axis spans (`dimX`/`dimY`/`dimZ`),
the largest span (`max(dims)`), and the first axis index attaining it
(`list(dims).index(max(dims))`); returns `(dims[axis], axis)`. -/
def get_longest_axis_size (o : Obj) : ℚ × Nat :=
  let m := max (dimX o) (max (dimY o) (dimZ o))
  let axis := if dimX o = m then 0 else if dimY o = m then 1 else 2
  (if axis = 0 then dimX o else if axis = 1 then dimY o else dimZ o, axis)

/-- The bounding-box centroid in local space:
`sum(bbox_local, Vector()) / 8.0` in `set_origin_to_geometry`. -/
def bboxCentroid (o : Obj) : Vec3 :=
  let s := o.boundBox.foldl Vec3.add Vec3.zero
  ⟨s.x / 8, s.y / 8, s.z / 8⟩

/-- `set_origin_to_geometry(obj)`: shift every vertex by the negative
local bbox centroid and compensate by moving `obj.location` to the
(pre-shift) world image of the centroid.  No-op for non-mesh objects,
objects without data, or vertex-free meshes. -/
def set_origin_to_geometry (o : Obj) : Obj :=
  if o.objType ≠ "MESH" ∨ o.hasData = false then o
  else if o.verts = [] then o
  else
    let center_local := bboxCentroid o
    { o with
      verts := o.verts.map (fun v => v.sub center_local),
      location := o.matrixWorld center_local }

/-- The per-object body of `apply_scale_reference`'s loop, given the
precomputed reference size: skip if the object's longest axis is 0;
multiply `obj.scale` by `ref_size / obj_size`; if baking and the object
is a mesh with data, push the scale into the vertices and reset
`obj.scale` to 1. -/
def scaleObj (ref_size : ℚ) (apply_scale : Bool) (o : Obj) : Obj :=
  let obj_size := (get_longest_axis_size o).1
  if obj_size = 0 then o
  else
    let factor := ref_size / obj_size
    let o1 := { o with scale := o.scale.smul factor }
    if apply_scale = true ∧ o1.objType = "MESH" ∧ o1.hasData = true then
      { o1 with
        verts := o1.verts.map (fun v =>
          ⟨v.x * o1.scale.x, v.y * o1.scale.y, v.z * o1.scale.z⟩),
        scale := ⟨1, 1, 1⟩ }
    else o1

/-- `apply_scale_reference(objects, ref_obj, apply_scale)`: compute the
reference's longest-axis size once; if it is 0 return with no change;
otherwise rescale every object (the Python mutates the objects in
place, the embedding returns the updated list). -/
def apply_scale_reference (objects : List Obj) (ref_obj : Obj)
    (apply_scale : Bool) : List Obj :=
  let ref_size := (get_longest_axis_size ref_obj).1
  if ref_size = 0 then objects
  else objects.map (scaleObj ref_size apply_scale)

/-- `apply_diffuse_as_emissive(objects)` rewires material node graphs
(Base Color → Emission Color links, Emission Strength) and touches
nothing that the modelled `Obj` fields record, so on the modelled state
it is the identity. -/
def apply_diffuse_as_emissive (objects : List Obj) : List Obj := objects

/-- `f"{base_name}_{i:03d}"`: zero-pad to at least three digits. -/
def pad3 (i : Nat) : String :=
  if i < 10 then "00" ++ toString i
  else if i < 100 then "0" ++ toString i
  else toString i

/-- One suffixed candidate name `f"{base_name}_{i:03d}"`. -/
def candidate (base_name : String) (i : Nat) : String :=
  base_name ++ "_" ++ pad3 i

/-- `unique_collection_name(base_name)` against the set of names held by
`bpy.data.collections`: the base name if free, else the first free
candidate among `base_001 … base_999` (`for i in range(1, 1000)`),
else the `RuntimeError`. -/
def unique_collection_name (existing : List String) (base_name : String) :
    Except String String :=
  if base_name ∉ existing then Except.ok base_name
  else
    match (List.range' 1 999).find? (fun i => candidate base_name i ∉ existing) with
    | some i => Except.ok (candidate base_name i)
    | none => Except.error ("All suffixes exhausted for collection " ++ base_name)

/-- A `bpy.types.Collection` together with its view-layer visibility:
`visible = ¬ layer_collection.exclude`.  `objNames` are the names of
the objects linked into the collection.  The add-on links every
collection it creates directly under the scene root and never nests
one inside another, so no child list is modelled (see the header). -/
structure Collection where
  name : String
  visible : Bool
  objNames : List String
deriving Repr, DecidableEq

/-- The Blender state the add-on mutates: the flat, name-keyed
collection registry `bpy.data.collections` (in creation order), the
objects linked directly into the scene root collection, and the object
registry `bpy.data.objects`. -/
structure Scene where
  cols : List Collection
  rootObjs : List String
  objs : List Obj
deriving Repr, DecidableEq

namespace Scene

def colNames (s : Scene) : List String := s.cols.map Collection.name

/-- Look the named collection up (`bpy.data.collections[name]`). -/
def findCol (s : Scene) (n : String) : Option Collection :=
  s.cols.find? (fun c => c.name = n)

end Scene

/-- `delete_collection_recursive(col)` applied to the collection named
`n`: remove every object the collection contains from `bpy.data`
(`do_unlink=True` also detaches them from the scene root), then remove
the collection itself.  The child recursion is vacuous for the flat
collections this model covers (see the header). -/
def delete_collection_recursive (n : String) (s : Scene) : Scene :=
  match s.findCol n with
  | none => s
  | some col =>
    { cols := s.cols.filter (fun c => c.name ≠ n),
      rootObjs := s.rootObjs.filter (fun o => o ∉ col.objNames),
      objs := s.objs.filter (fun o => o.name ∉ col.objNames) }

/-- `set_collection_visibility(col_name, visible)`:
`find_layer_collection` resolves the unique collection of that name (or
nothing, in which case this is a no-op) and sets
`layer_col.exclude = not visible`. -/
def set_collection_visibility (col_name : String) (visible : Bool)
    (s : Scene) : Scene :=
  { s with cols := s.cols.map (fun c =>
      if c.name = col_name then { c with visible := visible } else c) }

/-- `move_to_collection(obj, col)`: unlink the object from every
collection it belongs to (`obj.users_collection`, which includes the
scene root) and link it into the collection named `colName`. -/
def move_to_collection (objName : String) (colName : String) (s : Scene) :
    Scene :=
  { s with
    rootObjs := s.rootObjs.filter (fun o => o ≠ objName),
    cols := s.cols.map (fun c =>
      let trimmed := c.objNames.filter (fun o => o ≠ objName)
      if c.name = colName then { c with objNames := trimmed ++ [objName] }
      else { c with objNames := trimmed }) }

/-- A source file path: `filepath.name` (with extension) and
`filepath.stem`. -/
structure FPath where
  name : String
  stem : String
deriving Repr, DecidableEq

/-- The settings dictionary snapshot built in `invoke`. -/
structure Settings where
  up_axis : String
  center_pivots : Bool
  use_scale_ref : Bool
  ref_obj : Option Obj
  apply_scale : Bool
  replace_existing : Bool
  diffuse_as_emissive : Bool
deriving Repr, DecidableEq

/-- Apply `f` to every registered object whose name is in `names`
(the embedding of a Python `for obj in new_objects:` mutation loop;
imported object names are unique in `bpy.data`). -/
def Scene.mapNamed (names : List String) (f : Obj → Obj) (s : Scene) :
    Scene :=
  { s with objs := s.objs.map (fun o => if o.name ∈ names then f o else o) }

/-- `apply_scale_reference` acting through the scene on the named new
objects: the same reference-size guard and the same per-object body
`scaleObj` as the list-level `apply_scale_reference`. -/
def apply_scale_reference_scene (names : List String) (ref_obj : Obj)
    (apply_scale : Bool) (s : Scene) : Scene :=
  let ref_size := (get_longest_axis_size ref_obj).1
  if ref_size = 0 then s
  else s.mapNamed names (scaleObj ref_size apply_scale)

/-- `import_obj_file(filepath, up_axis)`: the importer itself is
external (`bpy.ops.wm.obj_import`), so the set of objects a file
yields is an oracle input `importResult`.  The importer registers the
new objects and links them into the active (scene root) collection;
the before/after registry diff returns exactly them. -/
def import_obj_file (importResult : List Obj) (s : Scene) :
    Scene × List Obj :=
  ({ s with
     objs := s.objs ++ importResult,
     rootObjs := s.rootObjs ++ importResult.map Obj.name },
   importResult)

/-- Steps 2–10 of `process_single_obj` (import through visibility
swap), after the target collection name has been resolved; this part
of the pipeline raises nothing in the modelled code. -/
def process_pipeline_after_name (settings : Settings) (stem col_name : String)
    (importResult : List Obj) (created_collections : List String)
    (s : Scene) : Scene × List String :=
  -- Import
  let (s, new_objects) := import_obj_file importResult s
  if new_objects = [] then
    (s, created_collections)
  else
  let newNames := new_objects.map Obj.name
  -- Center pivots
  let s := if settings.center_pivots then
      s.mapNamed newNames set_origin_to_geometry
    else s
  -- Move to world origin
  let s := s.mapNamed newNames (fun o => { o with location := Vec3.zero })
  -- Scale to reference
  let s := match settings.use_scale_ref, settings.ref_obj with
    | true, some r =>
      apply_scale_reference_scene newNames r settings.apply_scale s
    | _, _ => s
  -- Diffuse as emissive: material-graph only, identity on the modelled
  -- state (cf. apply_diffuse_as_emissive)
  -- Create Empty (Plain Axes) and link it into the scene root
  let empty : Obj :=
    { name := "EMPTY_" ++ stem, objType := "EMPTY", hasData := false,
      verts := [], location := Vec3.zero, rot := Mat3.id,
      scale := ⟨1, 1, 1⟩, parent := none,
      emptyDisplayType := "PLAIN_AXES" }
  let s := { s with objs := s.objs ++ [empty],
                    rootObjs := s.rootObjs ++ [empty.name] }
  -- Parent objects → empty (matrix_parent_inverse.identity() sets a
  -- transform field no claim consults; only the parent link is kept)
  let s := s.mapNamed newNames (fun o => { o with parent := some empty.name })
  -- Create collection (new collections start visible by default)
  let s := { s with cols := s.cols ++ [⟨col_name, true, []⟩] }
  let s := move_to_collection empty.name col_name s
  let s := newNames.foldl (fun acc n => move_to_collection n col_name acc) s
  -- Visibility: only the immediately preceding collection is touched
  let s := match created_collections.getLast? with
    | some prev => set_collection_visibility prev false s
    | none => s
  let s := set_collection_visibility col_name true s
  (s, created_collections ++ [col_name])

/-- `process_single_obj(filepath, settings, created_collections)`, with
the import oracle made explicit: step 1 resolves the target collection
name (replace mode deletes the same-named collection and reuses the
stem; otherwise `unique_collection_name`, whose `RuntimeError`
propagates), then `process_pipeline_after_name` runs the rest. -/
def process_single_obj (filepath : FPath) (settings : Settings)
    (created_collections : List String) (importResult : List Obj)
    (s : Scene) : Except String (Scene × List String) :=
  let stem := filepath.stem
  -- Handle name collision
  if settings.replace_existing = true ∧ stem ∈ s.colNames then
    Except.ok (process_pipeline_after_name settings stem stem importResult
      created_collections (delete_collection_recursive stem s))
  else
    match unique_collection_name s.colNames stem with
    | Except.ok n => Except.ok (process_pipeline_after_name settings stem n
        importResult created_collections s)
    | Except.error e => Except.error e

/-- The driver's per-file loop at the scene level: run
`process_single_obj` on each (file, import-oracle-result) pair, with
the driver's error policy (an exception leaves the job's scene and
created-list as they were and processing continues). -/
def runFiles (settings : Settings) :
    List (FPath × List Obj) → Scene → List String → Scene × List String
  | [], s, created => (s, created)
  | (fp, imp) :: rest, s, created =>
    match process_single_obj fp settings created imp s with
    | Except.ok (s', created') => runFiles settings rest s' created'
    | Except.error _ => runFiles settings rest s created

/-- The live UI `AutoIngestProperties` property group. -/
structure Props where
  folder_path : String
  up_axis : String
  center_pivots : Bool
  use_scale_ref : Bool
  reference_object : Option Obj
  replace_existing : Bool
  apply_scale : Bool
  diffuse_as_emissive : Bool
deriving Repr, DecidableEq

def defaultProps : Props :=
  { folder_path := "", up_axis := "Y", center_pivots := true,
    use_scale_ref := false, reference_object := none,
    replace_existing := false, apply_scale := true,
    diffuse_as_emissive := false }

/-- The summary reports `_finish` emits: `self.report` with either the
cancelled `WARNING` (`processed`/`total`) or the `INFO` message whose
imported figure is `total - len(errors)` alongside the error count. -/
inductive Report
  | cancelledRep (processed total : Nat)
  | finishedRep (imported : Nat) (errorCount : Nat)
deriving Repr, DecidableEq

/-- Operator return values. -/
inductive OpResult
  | RUNNING_MODAL
  | CANCELLED
  | FINISHED
  | PASS_THROUGH
deriving Repr, DecidableEq

/-- Modal events the handler distinguishes. -/
inductive Event
  | ESC
  | TIMER
  | OTHER
deriving Repr, DecidableEq

/-- The state `AUTOINGEST_OT_Import` runs over: its class-level fields,
the scene-level progress/running properties, the undo preference, the
timer, the live UI property group, and the Blender scene. -/
structure DriverState where
  obj_files : List FPath
  index : Nat
  total : Nat
  errors : List String
  settings : Settings
  created_collections : List String
  undo_was_enabled : Bool
  scene : Scene
  props : Props
  use_global_undo : Bool
  progress : Nat
  running : Bool
  timerActive : Bool
  report : Option Report
deriving Repr, DecidableEq

/-- The settings dictionary captured from the live properties in
`invoke`. -/
def snapshotSettings (p : Props) : Settings :=
  { up_axis := p.up_axis, center_pivots := p.center_pivots,
    use_scale_ref := p.use_scale_ref, ref_obj := p.reference_object,
    apply_scale := p.apply_scale, replace_existing := p.replace_existing,
    diffuse_as_emissive := p.diffuse_as_emissive }

/-- `AUTOINGEST_OT_Import.invoke`.  Whether `folder_path` names a real
directory and which files the recursive scan finds are filesystem
facts, passed as oracle inputs (`collect_obj_files` sorts them). -/
def invoke (folder_is_valid : Bool) (obj_files : List FPath)
    (st : DriverState) : OpResult × DriverState :=
  if folder_is_valid = false then (OpResult.CANCELLED, st)
  else if st.props.use_scale_ref = true ∧ st.props.reference_object = none then
    (OpResult.CANCELLED, st)
  else if obj_files = [] then (OpResult.CANCELLED, st)
  else
    (OpResult.RUNNING_MODAL,
     { st with
       obj_files := obj_files, index := 0, total := obj_files.length,
       errors := [], created_collections := [],
       settings := snapshotSettings st.props,
       undo_was_enabled := st.use_global_undo,
       use_global_undo := false,
       timerActive := true,
       progress := 0, running := true })

/-- `AUTOINGEST_OT_Import._finish`: remove the timer, restore the undo
preference to the snapshot, clear running, reset progress, emit the
summary report. -/
def _finish (st : DriverState) (cancelled : Bool) : OpResult × DriverState :=
  (OpResult.FINISHED,
   { st with
     timerActive := false,
     use_global_undo := st.undo_was_enabled,
     running := false,
     progress := 0,
     report := some (if cancelled then
         Report.cancelledRep st.index st.total
       else
         Report.finishedRep (st.total - st.errors.length) st.errors.length) })

/-- The per-file pipeline as the driver sees it (file, captured
settings, created-collections list, scene → updated scene and list, or
an exception message).  `modal`'s theorems quantify over it so that
"any exception" really means any. -/
abbrev Pipeline :=
  FPath → Settings → List String → Scene → Except String (Scene × List String)

/-- `AUTOINGEST_OT_Import.modal`.  `view_layer.update()` and the region
redraw tags refresh UI caches only, so they do not appear on the
modelled state.  The progress formula `int(((index+1)/total)*100)` is
the floor division.  In the Python, a raise inside
`process_single_obj` can leave partial scene mutations behind; the
modelled pipeline's only raise happens before any mutation, so keeping
the old scene in the error branch is faithful for it. -/
def modal (pipeline : Pipeline) (event : Event) (st : DriverState) :
    OpResult × DriverState :=
  match event with
  | Event.ESC => _finish st true
  | Event.TIMER =>
    if st.total ≤ st.index then _finish st false
    else
      -- progress is written before the potentially slow pipeline runs,
      -- so it is part of the result whether or not the pipeline raises
      let progress := ((st.index + 1) * 100) / st.total
      let filepath := st.obj_files.getD st.index ⟨"", ""⟩
      match pipeline filepath st.settings st.created_collections st.scene with
      | Except.ok (s, created) =>
        (OpResult.PASS_THROUGH,
         { st with progress := progress, scene := s,
                   created_collections := created, index := st.index + 1 })
      | Except.error e =>
        (OpResult.PASS_THROUGH,
         { st with progress := progress,
                   errors := st.errors ++ [filepath.name ++ ": " ++ e],
                   index := st.index + 1 })
  | Event.OTHER => (OpResult.PASS_THROUGH, st)

/-- Feed a stream of events to the modal handler; once it returns
`FINISHED` the handler is removed, so the run stops (the Bool records
whether the job reached a terminal state). -/
def runEvents (pipeline : Pipeline) :
    List Event → DriverState → DriverState × Bool
  | [], st => (st, false)
  | e :: es, st =>
    match modal pipeline e st with
    | (OpResult.FINISHED, st') => (st', true)
    | (_, st') => runEvents pipeline es st'

/-- An interleaving of host events with user edits of the live UI
properties (the latter is what a user clicking the panel mid-job
does). -/
inductive UserAction
  | host (e : Event)
  | edit (p : Props)

def setProps (p : Props) (st : DriverState) : DriverState :=
  { st with props := p }

/-- Run an interleaved stream of host events and live-property edits. -/
def runActions (pipeline : Pipeline) :
    List UserAction → DriverState → DriverState
  | [], st => st
  | (UserAction.host e) :: rest, st =>
    match modal pipeline e st with
    | (OpResult.FINISHED, st') => st'
    | (_, st') => runActions pipeline rest st'
  | (UserAction.edit p) :: rest, st => runActions pipeline rest (setProps p st)

/-- The host events of an action stream, in order. -/
def eventsOf : List UserAction → List Event
  | [] => []
  | (UserAction.host e) :: rest => e :: eventsOf rest
  | (UserAction.edit _) :: rest => eventsOf rest

/-- Everything of the driver state except the live UI properties: the
job itself and its outputs. -/
def jobView (st : DriverState) : DriverState := { st with props := defaultProps }

/-- The concrete driver pipeline: `process_single_obj` with a
given import oracle. -/
def pipelineOf (importOracle : FPath → List Obj) : Pipeline :=
  fun fp settings created scene =>
    process_single_obj fp settings created (importOracle fp) scene

/-! ## Helper lemmas: folds of `min` / `max` -/

lemma foldl_min_le_init (l : List ℚ) : ∀ x : ℚ, List.foldl min x l ≤ x := by
  induction l with
  | nil => intro x; simp
  | cons y l ih =>
    intro x
    calc List.foldl min (min x y) l ≤ min x y := ih (min x y)
    _ ≤ x := min_le_left x y

lemma init_le_foldl_max (l : List ℚ) : ∀ x : ℚ, x ≤ List.foldl max x l := by
  induction l with
  | nil => intro x; simp
  | cons y l ih =>
    intro x
    calc x ≤ max x y := le_max_left x y
    _ ≤ List.foldl max (max x y) l := ih (max x y)

lemma listMin_le_listMax {l : List ℚ} (h : l ≠ []) : listMin l ≤ listMax l := by
  match l, h with
  | x :: xs, _ =>
    calc listMin (x :: xs) ≤ x := foldl_min_le_init xs x
    _ ≤ listMax (x :: xs) := init_le_foldl_max xs x

lemma foldl_min_sub (a : ℚ) (l : List ℚ) :
    ∀ x : ℚ, List.foldl min (x - a) (l.map (fun q => q - a)) =
      List.foldl min x l - a := by
  induction l with
  | nil => intro x; simp
  | cons y l ih => intro x; simpa [min_sub_sub_right] using ih (min x y)

lemma foldl_max_sub (a : ℚ) (l : List ℚ) :
    ∀ x : ℚ, List.foldl max (x - a) (l.map (fun q => q - a)) =
      List.foldl max x l - a := by
  induction l with
  | nil => intro x; simp
  | cons y l ih => intro x; simpa [max_sub_sub_right] using ih (max x y)

lemma listMin_map_sub (a : ℚ) {l : List ℚ} (h : l ≠ []) :
    listMin (l.map (fun q => q - a)) = listMin l - a := by
  match l, h with
  | x :: xs, _ => simpa [listMin] using foldl_min_sub a xs x

lemma listMax_map_sub (a : ℚ) {l : List ℚ} (h : l ≠ []) :
    listMax (l.map (fun q => q - a)) = listMax l - a := by
  match l, h with
  | x :: xs, _ => simpa [listMax] using foldl_max_sub a xs x

/-! ## C5: `unique_collection_name` -/

lemma find?_range'_first (p : Nat → Bool) :
    ∀ (len s i : Nat), s ≤ i → i < s + len → p i = true →
      (∀ j, s ≤ j → j < i → p j = false) →
      (List.range' s len).find? p = some i := by
  intro len
  induction len with
  | zero => intro s i h1 h2; omega
  | succ n ih =>
    intro s i h1 h2 hp hbefore
    rw [List.range'_succ, List.find?_cons]
    rcases Nat.eq_or_lt_of_le h1 with heq | hlt
    · subst heq; rw [hp]
    · rw [hbefore s le_rfl hlt]
      exact ih (s + 1) i hlt (by omega) hp (fun j hj hj2 => hbefore j (by omega) hj2)

/-- C5.  `unique_collection_name`: an unused base name is returned
verbatim; otherwise the candidates `base_001 … base_999` are probed in
ascending order and the first free one is returned; if the base name
and all 999 candidates are taken, the call fails with the
`RuntimeError`. -/
theorem claim_C5_unique_collection_name (existing : List String) (base : String) :
    (base ∉ existing → unique_collection_name existing base = Except.ok base) ∧
    (base ∈ existing → ∀ i, 1 ≤ i → i ≤ 999 → candidate base i ∉ existing →
      (∀ j, 1 ≤ j → j < i → candidate base j ∈ existing) →
      unique_collection_name existing base = Except.ok (candidate base i)) ∧
    (base ∈ existing → (∀ i, 1 ≤ i → i ≤ 999 → candidate base i ∈ existing) →
      unique_collection_name existing base =
        Except.error ("All suffixes exhausted for collection " ++ base)) := by
  refine ⟨fun h => by simp [unique_collection_name, h], fun hmem i h1 h999 hfree hbefore => ?_, fun hmem hall => ?_⟩
  · have hfind : (List.range' 1 999).find?
        (fun i => decide (candidate base i ∉ existing)) = some i := by
      apply find?_range'_first _ 999 1 i h1 (by omega)
      · simpa using hfree
      · intro j hj1 hj2
        simpa using hbefore j hj1 hj2
    unfold unique_collection_name
    rw [if_neg (not_not_intro hmem), hfind]
  · have hfind : (List.range' 1 999).find?
        (fun i => decide (candidate base i ∉ existing)) = none := by
      rw [List.find?_eq_none]
      intro j hj
      rw [List.mem_range'_1] at hj
      simpa using hall j hj.1 (by omega)
    unfold unique_collection_name
    rw [if_neg (not_not_intro hmem), hfind]

theorem claim_C5_witness :
    unique_collection_name ["base", "base_001"] "base" =
      Except.ok (candidate "base" 2) := by
  refine (claim_C5_unique_collection_name ["base", "base_001"] "base").2.1
    (by decide) 2 (by decide) (by decide) (by decide) ?_
  intro j h1 h2
  interval_cases j
  decide

/-! ## C6: centering idempotence -/

lemma Vec3.sub_zero (v : Vec3) : v.sub Vec3.zero = v := by
  cases v; simp [Vec3.sub, Vec3.zero]

lemma matrixWorld_zero (o : Obj) : o.matrixWorld Vec3.zero = o.location := by
  cases hl : o.location
  simp [Obj.matrixWorld, Vec3.hadamard, Vec3.zero, Mat3.app, Vec3.add, hl]

/-- The local bounding-box centroid of a nonempty mesh is the per-axis
midpoint of the vertex extremes. -/
lemma bboxCentroid_eq (o : Obj) (h : o.verts ≠ []) :
    bboxCentroid o =
      ⟨(listMin (o.verts.map Vec3.x) + listMax (o.verts.map Vec3.x)) / 2,
       (listMin (o.verts.map Vec3.y) + listMax (o.verts.map Vec3.y)) / 2,
       (listMin (o.verts.map Vec3.z) + listMax (o.verts.map Vec3.z)) / 2⟩ := by
  simp only [bboxCentroid, Obj.boundBox, if_neg h, List.foldl, Vec3.add, Vec3.zero]
  simp only [Vec3.mk.injEq]
  refine ⟨by ring, by ring, by ring⟩

/-- C6.  Centering idempotence: a mesh whose bounding-box centroid is
already at the local origin is left entirely unchanged by
`set_origin_to_geometry`, and running the centering twice gives the
same object as running it once. -/
theorem claim_C6_centering_idempotent (o : Obj) :
    (bboxCentroid o = Vec3.zero → set_origin_to_geometry o = o) ∧
    set_origin_to_geometry (set_origin_to_geometry o) =
      set_origin_to_geometry o := by
  have base : ∀ o' : Obj, bboxCentroid o' = Vec3.zero →
      set_origin_to_geometry o' = o' := by
    intro o' hc
    unfold set_origin_to_geometry
    split
    · rfl
    · split
      · rfl
      · simp only [hc, matrixWorld_zero]
        cases o'
        simp [Vec3.sub_zero]
  refine ⟨base o, ?_⟩
  by_cases h1 : o.objType ≠ "MESH" ∨ o.hasData = false
  · have ho : set_origin_to_geometry o = o := by
      unfold set_origin_to_geometry; rw [if_pos h1]
    rw [ho]; exact ho
  · by_cases h2 : o.verts = []
    · have ho : set_origin_to_geometry o = o := by
        unfold set_origin_to_geometry; rw [if_neg h1, if_pos h2]
      rw [ho]; exact ho
    · have ho : set_origin_to_geometry o =
          { o with verts := o.verts.map (fun v => v.sub (bboxCentroid o)),
                   location := o.matrixWorld (bboxCentroid o) } := by
        unfold set_origin_to_geometry; rw [if_neg h1, if_neg h2]
      rw [ho]
      apply base
      have hne : o.verts ≠ [] := h2
      have hmapx : ((o.verts.map (fun v => v.sub (bboxCentroid o))).map Vec3.x) =
          (o.verts.map Vec3.x).map (fun q => q - (bboxCentroid o).x) := by
        simp [List.map_map, Vec3.sub, Function.comp]
      have hmapy : ((o.verts.map (fun v => v.sub (bboxCentroid o))).map Vec3.y) =
          (o.verts.map Vec3.y).map (fun q => q - (bboxCentroid o).y) := by
        simp [List.map_map, Vec3.sub, Function.comp]
      have hmapz : ((o.verts.map (fun v => v.sub (bboxCentroid o))).map Vec3.z) =
          (o.verts.map Vec3.z).map (fun q => q - (bboxCentroid o).z) := by
        simp [List.map_map, Vec3.sub, Function.comp]
      have hxne : o.verts.map Vec3.x ≠ [] := by simpa using hne
      have hyne : o.verts.map Vec3.y ≠ [] := by simpa using hne
      have hzne : o.verts.map Vec3.z ≠ [] := by simpa using hne
      have hne' : ({ o with
          verts := o.verts.map (fun v => v.sub (bboxCentroid o)),
          location := o.matrixWorld (bboxCentroid o) } : Obj).verts ≠ [] := by
        simpa using hne
      rw [bboxCentroid_eq _ hne']
      have hverts : ({ o with
          verts := o.verts.map (fun v => v.sub (bboxCentroid o)),
          location := o.matrixWorld (bboxCentroid o) } : Obj).verts =
          o.verts.map (fun v => v.sub (bboxCentroid o)) := rfl
      rw [hverts, hmapx, hmapy, hmapz,
        listMin_map_sub _ hxne, listMax_map_sub _ hxne,
        listMin_map_sub _ hyne, listMax_map_sub _ hyne,
        listMin_map_sub _ hzne, listMax_map_sub _ hzne]
      rw [bboxCentroid_eq o hne]
      simp only [Vec3.zero, Vec3.mk.injEq]
      refine ⟨by ring, by ring, by ring⟩

theorem claim_C6_witness :
    set_origin_to_geometry
      ({ name := "m", objType := "MESH", hasData := true,
         verts := [⟨-1, -2, -3⟩, ⟨1, 2, 3⟩], location := ⟨5, 6, 7⟩,
         rot := Mat3.id, scale := ⟨1, 1, 1⟩, parent := none,
         emptyDisplayType := "" } : Obj) =
      { name := "m", objType := "MESH", hasData := true,
        verts := [⟨-1, -2, -3⟩, ⟨1, 2, 3⟩], location := ⟨5, 6, 7⟩,
        rot := Mat3.id, scale := ⟨1, 1, 1⟩, parent := none,
        emptyDisplayType := "" } :=
  (claim_C6_centering_idempotent _).1 (by
    norm_num [bboxCentroid, Obj.boundBox, listMin, listMax, List.foldl,
      Vec3.add, Vec3.zero, min_def, max_def, Vec3.mk.injEq])

/-! ## C2: scale matching -/

/-- The spread of a list of coordinates. -/
def extent (l : List ℚ) : ℚ := listMax l - listMin l

set_option maxHeartbeats 1000000 in
lemma listMax8 (A1 A2 B1 B2 C1 C2 k : ℚ) :
    listMax [A1+B1+C1+k, A1+B1+C2+k, A1+B2+C1+k, A1+B2+C2+k,
             A2+B1+C1+k, A2+B1+C2+k, A2+B2+C1+k, A2+B2+C2+k] =
      max A1 A2 + max B1 B2 + max C1 C2 + k := by
  have l1 := le_max_left A1 A2
  have l2 := le_max_right A1 A2
  have l3 := le_max_left B1 B2
  have l4 := le_max_right B1 B2
  have l5 := le_max_left C1 C2
  have l6 := le_max_right C1 C2
  simp only [listMax, List.foldl]
  apply le_antisymm
  · repeat' apply max_le
    all_goals linarith
  · rcases max_choice A1 A2 with h1 | h1 <;> rcases max_choice B1 B2 with h2 | h2 <;>
      rcases max_choice C1 C2 with h3 | h3 <;> rw [h1, h2, h3] <;> simp [le_max_iff]

set_option maxHeartbeats 1000000 in
lemma listMin8 (A1 A2 B1 B2 C1 C2 k : ℚ) :
    listMin [A1+B1+C1+k, A1+B1+C2+k, A1+B2+C1+k, A1+B2+C2+k,
             A2+B1+C1+k, A2+B1+C2+k, A2+B2+C1+k, A2+B2+C2+k] =
      min A1 A2 + min B1 B2 + min C1 C2 + k := by
  have l1 := min_le_left A1 A2
  have l2 := min_le_right A1 A2
  have l3 := min_le_left B1 B2
  have l4 := min_le_right B1 B2
  have l5 := min_le_left C1 C2
  have l6 := min_le_right C1 C2
  simp only [listMin, List.foldl]
  apply le_antisymm
  · rcases min_choice A1 A2 with h1 | h1 <;> rcases min_choice B1 B2 with h2 | h2 <;>
      rcases min_choice C1 C2 with h3 | h3 <;> rw [h1, h2, h3] <;> simp [min_le_iff]
  · repeat' apply le_min
    all_goals linarith

/-- The world-space span along x is `|r0·s|`-weighted local extents. -/
lemma dimX_eq (o : Obj) (h : o.verts ≠ []) :
    dimX o = |o.rot.r0.x * o.scale.x| * extent (o.verts.map Vec3.x)
           + |o.rot.r0.y * o.scale.y| * extent (o.verts.map Vec3.y)
           + |o.rot.r0.z * o.scale.z| * extent (o.verts.map Vec3.z) := by
  have hx : o.verts.map Vec3.x ≠ [] := by simpa using h
  have hy : o.verts.map Vec3.y ≠ [] := by simpa using h
  have hz : o.verts.map Vec3.z ≠ [] := by simpa using h
  simp only [dimX, worldBBox, Obj.boundBox, if_neg h, Obj.matrixWorld,
    Mat3.app, Vec3.hadamard, Vec3.add, List.map]
  rw [listMax8, listMin8]
  have e1 : max (o.rot.r0.x * (o.scale.x * listMin (o.verts.map Vec3.x)))
              (o.rot.r0.x * (o.scale.x * listMax (o.verts.map Vec3.x)))
          - min (o.rot.r0.x * (o.scale.x * listMin (o.verts.map Vec3.x)))
              (o.rot.r0.x * (o.scale.x * listMax (o.verts.map Vec3.x)))
          = |o.rot.r0.x * o.scale.x| * extent (o.verts.map Vec3.x) := by
    rw [max_sub_min_eq_abs,
      show o.rot.r0.x * (o.scale.x * listMax (o.verts.map Vec3.x))
         - o.rot.r0.x * (o.scale.x * listMin (o.verts.map Vec3.x))
         = (o.rot.r0.x * o.scale.x)
           * (listMax (o.verts.map Vec3.x) - listMin (o.verts.map Vec3.x)) from by ring,
      abs_mul, abs_of_nonneg (sub_nonneg.mpr (listMin_le_listMax hx))]
    rfl
  have e2 : max (o.rot.r0.y * (o.scale.y * listMin (o.verts.map Vec3.y)))
              (o.rot.r0.y * (o.scale.y * listMax (o.verts.map Vec3.y)))
          - min (o.rot.r0.y * (o.scale.y * listMin (o.verts.map Vec3.y)))
              (o.rot.r0.y * (o.scale.y * listMax (o.verts.map Vec3.y)))
          = |o.rot.r0.y * o.scale.y| * extent (o.verts.map Vec3.y) := by
    rw [max_sub_min_eq_abs,
      show o.rot.r0.y * (o.scale.y * listMax (o.verts.map Vec3.y))
         - o.rot.r0.y * (o.scale.y * listMin (o.verts.map Vec3.y))
         = (o.rot.r0.y * o.scale.y)
           * (listMax (o.verts.map Vec3.y) - listMin (o.verts.map Vec3.y)) from by ring,
      abs_mul, abs_of_nonneg (sub_nonneg.mpr (listMin_le_listMax hy))]
    rfl
  have e3 : max (o.rot.r0.z * (o.scale.z * listMin (o.verts.map Vec3.z)))
              (o.rot.r0.z * (o.scale.z * listMax (o.verts.map Vec3.z)))
          - min (o.rot.r0.z * (o.scale.z * listMin (o.verts.map Vec3.z)))
              (o.rot.r0.z * (o.scale.z * listMax (o.verts.map Vec3.z)))
          = |o.rot.r0.z * o.scale.z| * extent (o.verts.map Vec3.z) := by
    rw [max_sub_min_eq_abs,
      show o.rot.r0.z * (o.scale.z * listMax (o.verts.map Vec3.z))
         - o.rot.r0.z * (o.scale.z * listMin (o.verts.map Vec3.z))
         = (o.rot.r0.z * o.scale.z)
           * (listMax (o.verts.map Vec3.z) - listMin (o.verts.map Vec3.z)) from by ring,
      abs_mul, abs_of_nonneg (sub_nonneg.mpr (listMin_le_listMax hz))]
    rfl
  linarith [e1, e2, e3]

/-- The world-space span along y, as `dimX_eq`. -/
lemma dimY_eq (o : Obj) (h : o.verts ≠ []) :
    dimY o = |o.rot.r1.x * o.scale.x| * extent (o.verts.map Vec3.x)
           + |o.rot.r1.y * o.scale.y| * extent (o.verts.map Vec3.y)
           + |o.rot.r1.z * o.scale.z| * extent (o.verts.map Vec3.z) := by
  have hx : o.verts.map Vec3.x ≠ [] := by simpa using h
  have hy : o.verts.map Vec3.y ≠ [] := by simpa using h
  have hz : o.verts.map Vec3.z ≠ [] := by simpa using h
  simp only [dimY, worldBBox, Obj.boundBox, if_neg h, Obj.matrixWorld,
    Mat3.app, Vec3.hadamard, Vec3.add, List.map]
  rw [listMax8, listMin8]
  have e1 := max_sub_min_eq_abs (o.rot.r1.x * (o.scale.x * listMin (o.verts.map Vec3.x)))
    (o.rot.r1.x * (o.scale.x * listMax (o.verts.map Vec3.x)))
  have e2 := max_sub_min_eq_abs (o.rot.r1.y * (o.scale.y * listMin (o.verts.map Vec3.y)))
    (o.rot.r1.y * (o.scale.y * listMax (o.verts.map Vec3.y)))
  have e3 := max_sub_min_eq_abs (o.rot.r1.z * (o.scale.z * listMin (o.verts.map Vec3.z)))
    (o.rot.r1.z * (o.scale.z * listMax (o.verts.map Vec3.z)))
  rw [show o.rot.r1.x * (o.scale.x * listMax (o.verts.map Vec3.x))
      - o.rot.r1.x * (o.scale.x * listMin (o.verts.map Vec3.x))
      = (o.rot.r1.x * o.scale.x)
        * (listMax (o.verts.map Vec3.x) - listMin (o.verts.map Vec3.x)) from by ring,
    abs_mul, abs_of_nonneg (sub_nonneg.mpr (listMin_le_listMax hx))] at e1
  rw [show o.rot.r1.y * (o.scale.y * listMax (o.verts.map Vec3.y))
      - o.rot.r1.y * (o.scale.y * listMin (o.verts.map Vec3.y))
      = (o.rot.r1.y * o.scale.y)
        * (listMax (o.verts.map Vec3.y) - listMin (o.verts.map Vec3.y)) from by ring,
    abs_mul, abs_of_nonneg (sub_nonneg.mpr (listMin_le_listMax hy))] at e2
  rw [show o.rot.r1.z * (o.scale.z * listMax (o.verts.map Vec3.z))
      - o.rot.r1.z * (o.scale.z * listMin (o.verts.map Vec3.z))
      = (o.rot.r1.z * o.scale.z)
        * (listMax (o.verts.map Vec3.z) - listMin (o.verts.map Vec3.z)) from by ring,
    abs_mul, abs_of_nonneg (sub_nonneg.mpr (listMin_le_listMax hz))] at e3
  simp only [extent]
  linarith [e1, e2, e3]

/-- The world-space span along z, as `dimX_eq`. -/
lemma dimZ_eq (o : Obj) (h : o.verts ≠ []) :
    dimZ o = |o.rot.r2.x * o.scale.x| * extent (o.verts.map Vec3.x)
           + |o.rot.r2.y * o.scale.y| * extent (o.verts.map Vec3.y)
           + |o.rot.r2.z * o.scale.z| * extent (o.verts.map Vec3.z) := by
  have hx : o.verts.map Vec3.x ≠ [] := by simpa using h
  have hy : o.verts.map Vec3.y ≠ [] := by simpa using h
  have hz : o.verts.map Vec3.z ≠ [] := by simpa using h
  simp only [dimZ, worldBBox, Obj.boundBox, if_neg h, Obj.matrixWorld,
    Mat3.app, Vec3.hadamard, Vec3.add, List.map]
  rw [listMax8, listMin8]
  have e1 := max_sub_min_eq_abs (o.rot.r2.x * (o.scale.x * listMin (o.verts.map Vec3.x)))
    (o.rot.r2.x * (o.scale.x * listMax (o.verts.map Vec3.x)))
  have e2 := max_sub_min_eq_abs (o.rot.r2.y * (o.scale.y * listMin (o.verts.map Vec3.y)))
    (o.rot.r2.y * (o.scale.y * listMax (o.verts.map Vec3.y)))
  have e3 := max_sub_min_eq_abs (o.rot.r2.z * (o.scale.z * listMin (o.verts.map Vec3.z)))
    (o.rot.r2.z * (o.scale.z * listMax (o.verts.map Vec3.z)))
  rw [show o.rot.r2.x * (o.scale.x * listMax (o.verts.map Vec3.x))
      - o.rot.r2.x * (o.scale.x * listMin (o.verts.map Vec3.x))
      = (o.rot.r2.x * o.scale.x)
        * (listMax (o.verts.map Vec3.x) - listMin (o.verts.map Vec3.x)) from by ring,
    abs_mul, abs_of_nonneg (sub_nonneg.mpr (listMin_le_listMax hx))] at e1
  rw [show o.rot.r2.y * (o.scale.y * listMax (o.verts.map Vec3.y))
      - o.rot.r2.y * (o.scale.y * listMin (o.verts.map Vec3.y))
      = (o.rot.r2.y * o.scale.y)
        * (listMax (o.verts.map Vec3.y) - listMin (o.verts.map Vec3.y)) from by ring,
    abs_mul, abs_of_nonneg (sub_nonneg.mpr (listMin_le_listMax hy))] at e2
  rw [show o.rot.r2.z * (o.scale.z * listMax (o.verts.map Vec3.z))
      - o.rot.r2.z * (o.scale.z * listMin (o.verts.map Vec3.z))
      = (o.rot.r2.z * o.scale.z)
        * (listMax (o.verts.map Vec3.z) - listMin (o.verts.map Vec3.z)) from by ring,
    abs_mul, abs_of_nonneg (sub_nonneg.mpr (listMin_le_listMax hz))] at e3
  simp only [extent]
  linarith [e1, e2, e3]

lemma min_mul_of_nonpos' (a b c : ℚ) (hc : c ≤ 0) :
    min (a * c) (b * c) = max a b * c := by
  rcases le_total a b with h | h
  · rw [max_eq_right h, min_eq_right (mul_le_mul_of_nonpos_right h hc)]
  · rw [max_eq_left h, min_eq_left (mul_le_mul_of_nonpos_right h hc)]

lemma max_mul_of_nonpos' (a b c : ℚ) (hc : c ≤ 0) :
    max (a * c) (b * c) = min a b * c := by
  rcases le_total a b with h | h
  · rw [min_eq_left h, max_eq_left (mul_le_mul_of_nonpos_right h hc)]
  · rw [min_eq_right h, max_eq_right (mul_le_mul_of_nonpos_right h hc)]

lemma foldl_min_map_mul_nonneg (c : ℚ) (hc : 0 ≤ c) (l : List ℚ) :
    ∀ x : ℚ, List.foldl min (x * c) (l.map (fun q => q * c)) =
      List.foldl min x l * c := by
  induction l with
  | nil => intro x; simp
  | cons y l ih =>
    intro x
    simpa [← min_mul_of_nonneg x y hc] using ih (min x y)

lemma foldl_max_map_mul_nonneg (c : ℚ) (hc : 0 ≤ c) (l : List ℚ) :
    ∀ x : ℚ, List.foldl max (x * c) (l.map (fun q => q * c)) =
      List.foldl max x l * c := by
  induction l with
  | nil => intro x; simp
  | cons y l ih =>
    intro x
    simpa [← max_mul_of_nonneg x y hc] using ih (max x y)

lemma foldl_min_map_mul_nonpos (c : ℚ) (hc : c ≤ 0) (l : List ℚ) :
    ∀ x : ℚ, List.foldl min (x * c) (l.map (fun q => q * c)) =
      List.foldl max x l * c := by
  induction l with
  | nil => intro x; simp
  | cons y l ih =>
    intro x
    simpa [← min_mul_of_nonpos' x y c hc] using ih (max x y)

lemma foldl_max_map_mul_nonpos (c : ℚ) (hc : c ≤ 0) (l : List ℚ) :
    ∀ x : ℚ, List.foldl max (x * c) (l.map (fun q => q * c)) =
      List.foldl min x l * c := by
  induction l with
  | nil => intro x; simp
  | cons y l ih =>
    intro x
    simpa [← max_mul_of_nonpos' x y c hc] using ih (min x y)

/-- Scaling every coordinate by `c` scales the spread by `|c|`. -/
lemma extent_map_mul (c : ℚ) (l : List ℚ) (h : l ≠ []) :
    extent (l.map (fun q => q * c)) = |c| * extent l := by
  match l, h with
  | x :: xs, _ =>
    rcases le_total 0 c with hc | hc
    · simp only [extent, listMin, listMax, List.map,
        foldl_min_map_mul_nonneg c hc, foldl_max_map_mul_nonneg c hc,
        abs_of_nonneg hc]
      ring
    · simp only [extent, listMin, listMax, List.map,
        foldl_min_map_mul_nonpos c hc, foldl_max_map_mul_nonpos c hc,
        abs_of_nonpos hc]
      ring

/-- `(get_longest_axis_size obj)[0]` is the maximum of the three spans
(regardless of which axis index the tie-breaking picks). -/
lemma get_longest_axis_size_fst (o : Obj) :
    (get_longest_axis_size o).1 = max (dimX o) (max (dimY o) (dimZ o)) := by
  simp only [get_longest_axis_size]
  by_cases h1 : dimX o = max (dimX o) (max (dimY o) (dimZ o))
  · rw [if_pos h1]
    simpa using h1
  · rw [if_neg h1]
    by_cases h2 : dimY o = max (dimX o) (max (dimY o) (dimZ o))
    · rw [if_pos h2]
      simpa using h2
    · rw [if_neg h2]
      have h3 : dimZ o = max (dimX o) (max (dimY o) (dimZ o)) := by
        rcases max_choice (dimX o) (max (dimY o) (dimZ o)) with h | h
        · exact absurd h.symm h1
        · rcases max_choice (dimY o) (dimZ o) with h' | h'
          · exact absurd (h.trans h').symm h2
          · exact (h.trans h').symm
      simpa using h3

lemma dims_nonneg (o : Obj) : 0 ≤ dimX o ∧ 0 ≤ dimY o ∧ 0 ≤ dimZ o := by
  have hne : (worldBBox o).map Vec3.x ≠ [] ∧ (worldBBox o).map Vec3.y ≠ [] ∧
      (worldBBox o).map Vec3.z ≠ [] := by
    have : o.boundBox ≠ [] := by
      unfold Obj.boundBox
      split <;> simp
    unfold worldBBox
    refine ⟨?_, ?_, ?_⟩ <;> simpa using this
  exact ⟨sub_nonneg.mpr (listMin_le_listMax hne.1),
    sub_nonneg.mpr (listMin_le_listMax hne.2.1),
    sub_nonneg.mpr (listMin_le_listMax hne.2.2)⟩

/-- A vertex-free object has longest-axis size 0 (its bounding box is a
point, so every world span vanishes). -/
lemma get_longest_axis_size_nil (o : Obj) (h : o.verts = []) :
    (get_longest_axis_size o).1 = 0 := by
  have hdx : dimX o = 0 := by
    simp [dimX, worldBBox, Obj.boundBox, h, List.replicate, listMin, listMax,
      List.foldl, min_self, max_self]
  have hdy : dimY o = 0 := by
    simp [dimY, worldBBox, Obj.boundBox, h, List.replicate, listMin, listMax,
      List.foldl, min_self, max_self]
  have hdz : dimZ o = 0 := by
    simp [dimZ, worldBBox, Obj.boundBox, h, List.replicate, listMin, listMax,
      List.foldl, min_self, max_self]
  simp [get_longest_axis_size_fst, hdx, hdy, hdz]

lemma abs_mul_factor (u v f : ℚ) (hf : 0 < f) : |u * (v * f)| = f * |u * v| := by
  rw [show u * (v * f) = u * v * f from by ring, abs_mul, abs_of_pos hf]
  ring

/-- Rescaling an object against a positive reference size multiplies
all three world-space spans by the same factor `R / L` — with or
without baking the scale into the vertices. -/
lemma scaleObj_dims (o : Obj) (R : ℚ) (b : Bool) (hR : 0 < R)
    (hL : 0 < (get_longest_axis_size o).1) :
    dimX (scaleObj R b o) = R / (get_longest_axis_size o).1 * dimX o ∧
    dimY (scaleObj R b o) = R / (get_longest_axis_size o).1 * dimY o ∧
    dimZ (scaleObj R b o) = R / (get_longest_axis_size o).1 * dimZ o := by
  have hne : o.verts ≠ [] := by
    intro h
    rw [get_longest_axis_size_nil o h] at hL
    exact lt_irrefl 0 hL
  have hf : 0 < R / (get_longest_axis_size o).1 := div_pos hR hL
  by_cases hb : b = true ∧ o.objType = "MESH" ∧ o.hasData = true
  · have hobj : scaleObj R b o =
        { o with
          verts := o.verts.map (fun v =>
            ⟨v.x * (o.scale.x * (R / (get_longest_axis_size o).1)),
             v.y * (o.scale.y * (R / (get_longest_axis_size o).1)),
             v.z * (o.scale.z * (R / (get_longest_axis_size o).1))⟩),
          scale := ⟨1, 1, 1⟩ } := by
      unfold scaleObj
      rw [if_neg hL.ne', if_pos ⟨hb.1, hb.2.1, hb.2.2⟩]
      rfl
    rw [hobj]
    have hne' : o.verts.map (fun v : Vec3 =>
        (⟨v.x * (o.scale.x * (R / (get_longest_axis_size o).1)),
          v.y * (o.scale.y * (R / (get_longest_axis_size o).1)),
          v.z * (o.scale.z * (R / (get_longest_axis_size o).1))⟩ : Vec3)) ≠ [] := by
      simpa using hne
    have hmx : (o.verts.map (fun v : Vec3 =>
        (⟨v.x * (o.scale.x * (R / (get_longest_axis_size o).1)),
          v.y * (o.scale.y * (R / (get_longest_axis_size o).1)),
          v.z * (o.scale.z * (R / (get_longest_axis_size o).1))⟩ : Vec3))).map Vec3.x =
        (o.verts.map Vec3.x).map
          (fun q => q * (o.scale.x * (R / (get_longest_axis_size o).1))) := by
      simp [List.map_map]
    have hmy : (o.verts.map (fun v : Vec3 =>
        (⟨v.x * (o.scale.x * (R / (get_longest_axis_size o).1)),
          v.y * (o.scale.y * (R / (get_longest_axis_size o).1)),
          v.z * (o.scale.z * (R / (get_longest_axis_size o).1))⟩ : Vec3))).map Vec3.y =
        (o.verts.map Vec3.y).map
          (fun q => q * (o.scale.y * (R / (get_longest_axis_size o).1))) := by
      simp [List.map_map]
    have hmz : (o.verts.map (fun v : Vec3 =>
        (⟨v.x * (o.scale.x * (R / (get_longest_axis_size o).1)),
          v.y * (o.scale.y * (R / (get_longest_axis_size o).1)),
          v.z * (o.scale.z * (R / (get_longest_axis_size o).1))⟩ : Vec3))).map Vec3.z =
        (o.verts.map Vec3.z).map
          (fun q => q * (o.scale.z * (R / (get_longest_axis_size o).1))) := by
      simp [List.map_map]
    have hxne : o.verts.map Vec3.x ≠ [] := by simpa using hne
    have hyne : o.verts.map Vec3.y ≠ [] := by simpa using hne
    have hzne : o.verts.map Vec3.z ≠ [] := by simpa using hne
    refine ⟨?_, ?_, ?_⟩
    · rw [dimX_eq _ hne', dimX_eq o hne]
      simp only [hmx, hmy, hmz,
        extent_map_mul _ _ hxne, extent_map_mul _ _ hyne, extent_map_mul _ _ hzne]
      simp only [mul_one, abs_mul, abs_of_pos hf]
      ring
    · rw [dimY_eq _ hne', dimY_eq o hne]
      simp only [hmx, hmy, hmz,
        extent_map_mul _ _ hxne, extent_map_mul _ _ hyne, extent_map_mul _ _ hzne]
      simp only [mul_one, abs_mul, abs_of_pos hf]
      ring
    · rw [dimZ_eq _ hne', dimZ_eq o hne]
      simp only [hmx, hmy, hmz,
        extent_map_mul _ _ hxne, extent_map_mul _ _ hyne, extent_map_mul _ _ hzne]
      simp only [mul_one, abs_mul, abs_of_pos hf]
      ring
  · have hobj : scaleObj R b o =
        { o with scale := o.scale.smul (R / (get_longest_axis_size o).1) } := by
      unfold scaleObj
      rw [if_neg hL.ne', if_neg hb]
    rw [hobj]
    refine ⟨?_, ?_, ?_⟩
    · rw [dimX_eq { o with
          scale := o.scale.smul (R / (get_longest_axis_size o).1) } hne,
        dimX_eq o hne]
      simp only [Vec3.smul, abs_mul, abs_of_pos hf]
      ring
    · rw [dimY_eq { o with
          scale := o.scale.smul (R / (get_longest_axis_size o).1) } hne,
        dimY_eq o hne]
      simp only [Vec3.smul, abs_mul, abs_of_pos hf]
      ring
    · rw [dimZ_eq { o with
          scale := o.scale.smul (R / (get_longest_axis_size o).1) } hne,
        dimZ_eq o hne]
      simp only [Vec3.smul, abs_mul, abs_of_pos hf]
      ring

/-- Rescaling puts the target's longest world-axis size exactly at the
reference size. -/
lemma scaleObj_longest (o : Obj) (R : ℚ) (b : Bool) (hR : 0 < R)
    (hL : 0 < (get_longest_axis_size o).1) :
    (get_longest_axis_size (scaleObj R b o)).1 = R := by
  obtain ⟨hdx, hdy, hdz⟩ := scaleObj_dims o R b hR hL
  have hf : (0:ℚ) ≤ R / (get_longest_axis_size o).1 := (div_pos hR hL).le
  rw [get_longest_axis_size_fst, hdx, hdy, hdz,
    ← mul_max_of_nonneg _ _ hf, ← mul_max_of_nonneg _ _ hf,
    ← get_longest_axis_size_fst, div_mul_cancel₀ _ hL.ne']

/-- C2.  Scale matching: with reference longest-axis size `R`,
if `R = 0` the whole call is a no-op; if `R > 0` every target is
processed by the per-object body, a target of size 0 is skipped
unchanged, and a target of size `L > 0` ends with longest-axis size
exactly `R`, all three of its world spans having been multiplied by the
single (homothetic) factor `R / L`. -/
theorem claim_C2_scale_matching (objects : List Obj) (ref_obj : Obj) (b : Bool) :
    ((get_longest_axis_size ref_obj).1 = 0 →
      apply_scale_reference objects ref_obj b = objects) ∧
    (0 < (get_longest_axis_size ref_obj).1 →
      apply_scale_reference objects ref_obj b =
        objects.map (scaleObj (get_longest_axis_size ref_obj).1 b) ∧
      ∀ o ∈ objects,
        ((get_longest_axis_size o).1 = 0 →
          scaleObj (get_longest_axis_size ref_obj).1 b o = o) ∧
        (0 < (get_longest_axis_size o).1 →
          (get_longest_axis_size
            (scaleObj (get_longest_axis_size ref_obj).1 b o)).1 =
              (get_longest_axis_size ref_obj).1 ∧
          dimX (scaleObj (get_longest_axis_size ref_obj).1 b o) =
            (get_longest_axis_size ref_obj).1 / (get_longest_axis_size o).1
              * dimX o ∧
          dimY (scaleObj (get_longest_axis_size ref_obj).1 b o) =
            (get_longest_axis_size ref_obj).1 / (get_longest_axis_size o).1
              * dimY o ∧
          dimZ (scaleObj (get_longest_axis_size ref_obj).1 b o) =
            (get_longest_axis_size ref_obj).1 / (get_longest_axis_size o).1
              * dimZ o)) := by
  constructor
  · intro h
    simp [apply_scale_reference, h]
  · intro hR
    constructor
    · simp [apply_scale_reference, hR.ne']
    · intro o _
      constructor
      · intro hL0
        unfold scaleObj
        rw [if_pos hL0]
      · intro hL
        obtain ⟨hdx, hdy, hdz⟩ :=
          scaleObj_dims o (get_longest_axis_size ref_obj).1 b hR hL
        exact ⟨scaleObj_longest o _ b hR hL, hdx, hdy, hdz⟩

/-- A reference whose longest world axis is the y-extent 2. -/
def refW : Obj :=
  { name := "ref", objType := "MESH", hasData := true,
    verts := [⟨0, 0, 0⟩, ⟨0, 2, 0⟩], location := Vec3.zero,
    rot := Mat3.id, scale := ⟨1, 1, 1⟩, parent := none,
    emptyDisplayType := "" }

/-- A target whose longest world axis is the x-extent 1. -/
def tgtW : Obj :=
  { name := "tgt", objType := "MESH", hasData := true,
    verts := [⟨0, 0, 0⟩, ⟨1, 0, 0⟩], location := Vec3.zero,
    rot := Mat3.id, scale := ⟨1, 1, 1⟩, parent := none,
    emptyDisplayType := "" }

lemma refW_longest : (get_longest_axis_size refW).1 = 2 := by
  have hne : refW.verts ≠ [] := by simp [refW]
  have hx : extent (refW.verts.map Vec3.x) = 0 := by
    norm_num [refW, extent, listMin, listMax, List.foldl, min_def, max_def]
  have hy : extent (refW.verts.map Vec3.y) = 2 := by
    norm_num [refW, extent, listMin, listMax, List.foldl, min_def, max_def]
  have hz : extent (refW.verts.map Vec3.z) = 0 := by
    norm_num [refW, extent, listMin, listMax, List.foldl, min_def, max_def]
  have hdx : dimX refW = 0 := by
    rw [dimX_eq refW hne, hx, hy, hz]
    norm_num [refW, Mat3.id]
  have hdy : dimY refW = 2 := by
    rw [dimY_eq refW hne, hx, hy, hz]
    norm_num [refW, Mat3.id]
  have hdz : dimZ refW = 0 := by
    rw [dimZ_eq refW hne, hx, hy, hz]
    norm_num [refW, Mat3.id]
  rw [get_longest_axis_size_fst, hdx, hdy, hdz]
  norm_num [max_def]

lemma tgtW_longest : (get_longest_axis_size tgtW).1 = 1 := by
  have hne : tgtW.verts ≠ [] := by simp [tgtW]
  have hx : extent (tgtW.verts.map Vec3.x) = 1 := by
    norm_num [tgtW, extent, listMin, listMax, List.foldl, min_def, max_def]
  have hy : extent (tgtW.verts.map Vec3.y) = 0 := by
    norm_num [tgtW, extent, listMin, listMax, List.foldl, min_def, max_def]
  have hz : extent (tgtW.verts.map Vec3.z) = 0 := by
    norm_num [tgtW, extent, listMin, listMax, List.foldl, min_def, max_def]
  have hdx : dimX tgtW = 1 := by
    rw [dimX_eq tgtW hne, hx, hy, hz]
    norm_num [tgtW, Mat3.id]
  have hdy : dimY tgtW = 0 := by
    rw [dimY_eq tgtW hne, hx, hy, hz]
    norm_num [tgtW, Mat3.id]
  have hdz : dimZ tgtW = 0 := by
    rw [dimZ_eq tgtW hne, hx, hy, hz]
    norm_num [tgtW, Mat3.id]
  rw [get_longest_axis_size_fst, hdx, hdy, hdz]
  norm_num [max_def]

theorem claim_C2_witness :
    (get_longest_axis_size
      (scaleObj (get_longest_axis_size refW).1 true tgtW)).1 =
      (get_longest_axis_size refW).1 := by
  have h1 : 0 < (get_longest_axis_size refW).1 := by rw [refW_longest]; norm_num
  have h2 : 0 < (get_longest_axis_size tgtW).1 := by rw [tgtW_longest]; norm_num
  exact ((((claim_C2_scale_matching [tgtW] refW true).2 h1).2 tgtW
    (by simp)).2 h2).1

/-! ## C1 / C7: collection bookkeeping.  The visibility claims consult
only the (name, visible) rows of the collection registry, projected out
by `visList`. -/

/-- The (name, visible) rows of `bpy.data.collections` together with
their view-layer visibility. -/
def visList (s : Scene) : List (String × Bool) :=
  s.cols.map (fun c => (c.name, c.visible))

/-- `set_collection_visibility` at the (name, visible) level. -/
def setVis (n : String) (b : Bool) (vl : List (String × Bool)) :
    List (String × Bool) :=
  vl.map (fun p => if p.1 = n then (p.1, b) else p)

lemma visList_names (s : Scene) :
    (visList s).map Prod.fst = s.colNames := by
  simp [visList, Scene.colNames, List.map_map]

lemma setVis_names (n : String) (b : Bool) (vl : List (String × Bool)) :
    (setVis n b vl).map Prod.fst = vl.map Prod.fst := by
  induction vl with
  | nil => rfl
  | cons p l ih =>
    by_cases h : p.1 = n <;> simp [setVis, h] at ih ⊢ <;> exact ih

lemma visList_delete (s : Scene) (n : String) :
    visList (delete_collection_recursive n s) =
      (visList s).filter (fun p => p.1 ≠ n) := by
  unfold delete_collection_recursive
  cases hf : s.findCol n with
  | none =>
    rw [Scene.findCol, List.find?_eq_none] at hf
    have hall : ∀ p ∈ visList s, p.1 ≠ n := by
      intro p hp
      obtain ⟨c, hc, rfl⟩ := List.mem_map.mp hp
      simpa using hf c hc
    exact ((List.filter_eq_self.mpr (fun p hp => by simpa using hall p hp))).symm
  | some col =>
    show (s.cols.filter (fun c => c.name ≠ n)).map (fun c => (c.name, c.visible)) =
      (s.cols.map (fun c => (c.name, c.visible))).filter (fun p => p.1 ≠ n)
    induction s.cols with
    | nil => rfl
    | cons c l ih => by_cases h : c.name = n <;> simpa [List.filter_cons, h] using ih

lemma visList_setColVis (s : Scene) (n : String) (b : Bool) :
    visList (set_collection_visibility n b s) = setVis n b (visList s) := by
  simp only [visList, setVis, set_collection_visibility, List.map_map]
  apply List.map_congr_left
  intro c _
  by_cases h : c.name = n <;> simp [Function.comp, h]

lemma visList_move (o cn : String) (s : Scene) :
    visList (move_to_collection o cn s) = visList s := by
  simp only [visList, move_to_collection, List.map_map]
  apply List.map_congr_left
  intro c _
  by_cases h : c.name = cn <;> simp [Function.comp, h]

lemma visList_move_foldl (names : List String) (cn : String) (s : Scene) :
    visList (names.foldl (fun acc n => move_to_collection n cn acc) s) =
      visList s := by
  induction names generalizing s with
  | nil => rfl
  | cons m l ih => rw [List.foldl_cons, ih, visList_move]

lemma visList_mapNamed (names : List String) (f : Obj → Obj) (s : Scene) :
    visList (s.mapNamed names f) = visList s := rfl

lemma cols_scale_scene (names : List String) (r : Obj) (b : Bool) (s : Scene) :
    (apply_scale_reference_scene names r b s).cols = s.cols := by
  show (if (get_longest_axis_size r).1 = 0 then s
        else s.mapNamed names (scaleObj (get_longest_axis_size r).1 b)).cols = s.cols
  split <;> rfl

lemma visList_cols_only {s t : Scene} (h : s.cols = t.cols) :
    visList s = visList t := by
  rw [visList, visList, h]

lemma visList_mk (cs : List Collection) (rs : List String) (os : List Obj) :
    visList (Scene.mk cs rs os) = cs.map (fun c => (c.name, c.visible)) := rfl

lemma cols_mapNamed (names : List String) (f : Obj → Obj) (s : Scene) :
    (Scene.mapNamed names f s).cols = s.cols := rfl

lemma visList_newCol (s : Scene) (c : Collection) :
    visList { s with cols := s.cols ++ [c] } = visList s ++ [(c.name, c.visible)] := by
  simp [visList]

/-- `unique_collection_name` only returns names no existing collection
holds. -/
lemma unique_collection_name_fresh (existing : List String) (base n : String)
    (h : unique_collection_name existing base = Except.ok n) : n ∉ existing := by
  unfold unique_collection_name at h
  by_cases hb : base ∉ existing
  · rw [if_pos hb] at h
    cases h
    exact hb
  · rw [if_neg hb] at h
    cases hfind : (List.range' 1 999).find?
        (fun i => decide (candidate base i ∉ existing)) with
    | none => rw [hfind] at h; cases h
    | some i =>
      rw [hfind] at h
      cases h
      simpa using List.find?_some hfind

/-- Aborted empty import: `process_pipeline_after_name` returns the
scene it was given and the unchanged created list. -/
lemma after_name_empty (settings : Settings) (stem coln : String)
    (created : List String) (s : Scene) :
    process_pipeline_after_name settings stem coln [] created s = (s, created) := by
  cases s
  simp [process_pipeline_after_name, import_obj_file]

/-- `apply_scale_reference_scene` never touches the collections. -/
lemma visList_scale_scene (names : List String) (r : Obj) (b : Bool) (s : Scene) :
    visList (apply_scale_reference_scene names r b s) = visList s :=
  visList_cols_only (cols_scale_scene names r b s)

/-- Successful run: the created list gains exactly the new collection
name, and the visibility rows are the old ones plus the new (visible)
collection, with `created[-1]` hidden and the new name shown. -/
lemma after_name_spec (settings : Settings) (stem coln : String)
    (imp : List Obj) (created : List String) (s : Scene) (h : imp ≠ []) :
    (process_pipeline_after_name settings stem coln imp created s).2 =
      created ++ [coln] ∧
    visList (process_pipeline_after_name settings stem coln imp created s).1 =
      setVis coln true
        (match created.getLast? with
         | some prev => setVis prev false (visList s ++ [(coln, true)])
         | none => visList s ++ [(coln, true)]) := by
  obtain ⟨o, rest, rfl⟩ : ∃ o rest, imp = o :: rest := by
    cases imp with
    | nil => exact absurd rfl h
    | cons o rest => exact ⟨o, rest, rfl⟩
  refine ⟨rfl, ?_⟩
  cases hcp : settings.center_pivots <;>
    cases husr : settings.use_scale_ref <;>
    cases href : settings.ref_obj <;>
    cases hlast : created.getLast? <;>
    simp only [process_pipeline_after_name, import_obj_file, hcp, husr, href,
      hlast, List.cons_ne_nil, ne_eq, if_false, ite_false, ite_true, if_true,
      Bool.false_eq_true, eq_self_iff_true, visList_setColVis,
      visList_move_foldl, visList_move, visList_newCol, visList_mapNamed,
      visList_scale_scene, visList_mk, cols_mapNamed, cols_scale_scene,
      List.map_append, List.map_cons, List.map_nil] <;>
    rfl

lemma setVis_mem_elim {vl : List (String × Bool)} {n : String} {b : Bool}
    {p : String × Bool} (hp : p ∈ setVis n b vl) :
    (p.1 = n ∧ p.2 = b) ∨ (p.1 ≠ n ∧ p ∈ vl) := by
  obtain ⟨q, hq, him⟩ := List.mem_map.mp hp
  by_cases h : q.1 = n
  · rw [if_pos h] at him
    left
    rw [← him, h]
    exact ⟨rfl, rfl⟩
  · rw [if_neg h] at him
    right
    rw [← him]
    exact ⟨h, hq⟩

lemma setVis_self_mem {vl : List (String × Bool)} {n : String} {b : Bool}
    {q : String × Bool} (hq : q ∈ vl) (h : q.1 = n) : (n, b) ∈ setVis n b vl :=
  List.mem_map.mpr ⟨q, hq, by rw [if_pos h, h]⟩

lemma setVis_mem_of_ne {vl : List (String × Bool)} {n : String} {b : Bool}
    {p : String × Bool} (hp : p ∈ vl) (h : p.1 ≠ n) : p ∈ setVis n b vl :=
  List.mem_map.mpr ⟨p, hp, if_neg h⟩

/-- What one successful `process_pipeline_after_name` run guarantees,
given a post-deletion scene `s1` whose rows come from the original
scene `sOrig` and in which the resolved name `coln` is fresh. -/
lemma after_name_success (settings : Settings) (stem coln : String)
    (imp : List Obj) (created : List String) (s1 sOrig : Scene)
    (himp : imp ≠ [])
    (hsub : ∀ p ∈ visList s1, p ∈ visList sOrig)
    (hsup : ∀ p ∈ visList sOrig, p.1 ≠ stem → p ∈ visList s1)
    (hfresh : ∀ q ∈ visList s1, q.1 ≠ coln)
    (hnd1 : ((visList s1).map Prod.fst).Nodup)
    (hinv : ∀ p ∈ visList sOrig, p.1 ∈ created →
      created.getLast? ≠ some p.1 → p.2 = false) :
    (((visList (process_pipeline_after_name settings stem coln imp created
        s1).1).map Prod.fst).Nodup) ∧
    (process_pipeline_after_name settings stem coln imp created s1).2 =
      created ++ [coln] ∧
    (coln, true) ∈
      visList (process_pipeline_after_name settings stem coln imp created s1).1 ∧
    (∀ p ∈ visList (process_pipeline_after_name settings stem coln imp created
        s1).1, p.1 ∈ created ++ [coln] → p.1 ≠ coln → p.2 = false) ∧
    (∀ p ∈ visList sOrig, p.1 ≠ coln → created.getLast? ≠ some p.1 →
      p.1 ≠ stem →
      p ∈ visList (process_pipeline_after_name settings stem coln imp created
        s1).1) := by
  obtain ⟨h2, hvl⟩ := after_name_spec settings stem coln imp created s1 himp
  refine ⟨?_, h2, ?_, ?_, ?_⟩
  · -- names are the old ones plus the fresh one
    rw [hvl]
    cases hlast : created.getLast? <;>
      simp only [setVis_names, List.map_append, List.map_cons, List.map_nil]
    · rw [List.nodup_append]
      refine ⟨hnd1, List.nodup_singleton coln, ?_⟩
      intro a ha hb
      simp only [List.mem_singleton] at hb
      subst hb
      obtain ⟨q, hq, rfl⟩ := List.mem_map.mp ha
      exact hfresh q hq rfl
    · rw [List.nodup_append]
      refine ⟨hnd1, List.nodup_singleton coln, ?_⟩
      intro a ha hb
      simp only [List.mem_singleton] at hb
      subst hb
      obtain ⟨q, hq, rfl⟩ := List.mem_map.mp ha
      exact hfresh q hq rfl
  · -- the new collection ends visible
    rw [hvl]
    cases hlast : created.getLast? with
    | none =>
      exact setVis_self_mem (List.mem_append_right _ (List.mem_singleton.mpr rfl)) rfl
    | some prev =>
      refine @setVis_self_mem
        (setVis prev false (visList s1 ++ [(coln, true)])) coln true
        (if (coln, true).1 = prev then ((coln, true).1, false) else (coln, true))
        (List.mem_map.mpr ⟨(coln, true),
          List.mem_append_right _ (List.mem_singleton.mpr rfl), rfl⟩) ?_
      split <;> rfl
  · -- every other job-created collection is hidden
    intro p hp hpc hpne
    rw [hvl] at hp
    rcases setVis_mem_elim hp with ⟨h1, _⟩ | ⟨_, hp2⟩
    · exact absurd h1 hpne
    · rcases List.mem_append.mp hpc with hpcr | hpcl
      · cases hlast : created.getLast? with
        | none =>
          rw [List.getLast?_eq_none_iff] at hlast
          subst hlast
          simp at hpcr
        | some prev =>
          rw [hlast] at hp2
          rcases setVis_mem_elim hp2 with ⟨_, h2⟩ | ⟨hne, hp3⟩
          · exact h2
          · rcases List.mem_append.mp hp3 with hp4 | hp4
            · have hx : created.getLast? ≠ some p.1 := by
                rw [hlast]
                exact fun hc => hne (Option.some.inj hc).symm
              exact hinv p (hsub p hp4) hpcr hx
            · simp only [List.mem_singleton] at hp4
              subst hp4
              exact absurd rfl hpne
      · simp only [List.mem_singleton] at hpcl
        exact absurd hpcl hpne
  · -- untouched collections keep their row
    intro p hp hpc hplast hpstem
    rw [hvl]
    have hp1 : p ∈ visList s1 := hsup p hp hpstem
    have hp2 : p ∈ (visList s1 ++ [(coln, true)]) := List.mem_append_left _ hp1
    cases hlast : created.getLast? with
    | none => exact setVis_mem_of_ne hp2 hpc
    | some prev =>
      rw [hlast] at hplast
      have hpprev : p.1 ≠ prev := fun hc => hplast (by rw [hc])
      exact setVis_mem_of_ne (setVis_mem_of_ne hp2 hpprev) hpc

lemma names_delete (s : Scene) (n : String) :
    (delete_collection_recursive n s).colNames =
      s.colNames.filter (fun m => m ≠ n) := by
  rw [← visList_names, visList_delete, ← visList_names]
  induction (visList s) with
  | nil => rfl
  | cons p l ih => by_cases h : p.1 = n <;> simpa [List.filter_cons, h] using ih

/-- C1 (amended).  After every per-file pipeline run that returns
normally: collection names stay unique; every job-created collection
other than the most recently created name is hidden whenever it still
exists; an empty-import run appends nothing; and a container-creating
run leaves exactly the new container visible among the job's
containers (it is visible, every other job-created name's collection is
hidden), touching nothing but the immediately preceding container, the
new one, and — in replace mode — the deleted same-named collection.
The unamended claim fails only when a replace-mode run deletes the most
recently created container and then aborts on an empty import. -/
theorem claim_C1_visibility_invariant
    (fp : FPath) (settings : Settings) (created : List String)
    (imp : List Obj) (s s' : Scene) (created' : List String)
    (hnd : s.colNames.Nodup)
    (hinv : ∀ p ∈ visList s, p.1 ∈ created →
      created.getLast? ≠ some p.1 → p.2 = false)
    (h : process_single_obj fp settings created imp s =
      Except.ok (s', created')) :
    s'.colNames.Nodup ∧
    (∀ p ∈ visList s', p.1 ∈ created' →
      created'.getLast? ≠ some p.1 → p.2 = false) ∧
    (imp = [] → created' = created) ∧
    (imp ≠ [] →
      ∃ n, created' = created ++ [n] ∧ (n, true) ∈ visList s' ∧
        (∀ p ∈ visList s', p.1 ∈ created' → p.1 ≠ n → p.2 = false) ∧
        (∀ p ∈ visList s, p.1 ≠ n → created.getLast? ≠ some p.1 →
          p.1 ≠ fp.stem → p ∈ visList s')) := by
  unfold process_single_obj at h
  by_cases hrep : settings.replace_existing = true ∧ fp.stem ∈ s.colNames
  · rw [if_pos hrep] at h
    have h' := Except.ok.inj h
    by_cases himp : imp = []
    · subst himp
      rw [after_name_empty] at h'
      have hs1 : s' = delete_collection_recursive fp.stem s :=
        (congrArg Prod.fst h').symm
      have hc1 : created' = created := (congrArg Prod.snd h').symm
      subst hs1; subst hc1
      refine ⟨?_, ?_, fun _ => rfl, fun hx => absurd rfl hx⟩
      · rw [names_delete]
        exact hnd.filter _
      · intro p hp hpc hpl
        rw [visList_delete] at hp
        exact hinv p (List.mem_filter.mp hp).1 hpc hpl
    · have hsub : ∀ p ∈ visList (delete_collection_recursive fp.stem s),
          p ∈ visList s := by
        intro p hp
        rw [visList_delete] at hp
        exact (List.mem_filter.mp hp).1
      have hsup : ∀ p ∈ visList s, p.1 ≠ fp.stem →
          p ∈ visList (delete_collection_recursive fp.stem s) := by
        intro p hp hne
        rw [visList_delete]
        exact List.mem_filter.mpr ⟨hp, by simpa using hne⟩
      have hfresh : ∀ q ∈ visList (delete_collection_recursive fp.stem s),
          q.1 ≠ fp.stem := by
        intro q hq
        rw [visList_delete] at hq
        simpa using (List.mem_filter.mp hq).2
      have hnd1 : ((visList (delete_collection_recursive fp.stem s)).map
          Prod.fst).Nodup := by
        rw [visList_names, names_delete]
        exact hnd.filter _
      obtain ⟨k1, k2, k3, k4, k5⟩ := after_name_success settings fp.stem fp.stem
        imp created (delete_collection_recursive fp.stem s) s himp hsub hsup
        hfresh hnd1 hinv
      have hs1 : s' = (process_pipeline_after_name settings fp.stem fp.stem imp
          created (delete_collection_recursive fp.stem s)).1 :=
        (congrArg Prod.fst h').symm
      have hcc : (process_pipeline_after_name settings fp.stem fp.stem imp
          created (delete_collection_recursive fp.stem s)).2 = created' :=
        congrArg Prod.snd h'
      have hc1 : created' = created ++ [fp.stem] := by rw [← hcc]; exact k2
      subst hs1
      refine ⟨by rw [visList_names] at k1; exact k1, ?_, fun hx => absurd hx himp,
        fun _ => ⟨fp.stem, hc1, k3, ?_, k5⟩⟩
      · intro p hp hpc hpl
        rw [hc1] at hpc hpl
        have hlast' : (created ++ [fp.stem]).getLast? = some fp.stem := by simp
        rw [hlast'] at hpl
        exact k4 p hp hpc (fun hc => hpl (by rw [hc]))
      · intro p hp hpc hpn
        rw [hc1] at hpc
        exact k4 p hp hpc hpn
  · rw [if_neg hrep] at h
    cases hu : unique_collection_name s.colNames fp.stem with
    | error e => rw [hu] at h; cases h
    | ok n =>
      rw [hu] at h
      have h' := Except.ok.inj h
      have hfreshName : n ∉ s.colNames := unique_collection_name_fresh _ _ _ hu
      by_cases himp : imp = []
      · subst himp
        rw [after_name_empty] at h'
        have hs1 : s' = s := (congrArg Prod.fst h').symm
        have hc1 : created' = created := (congrArg Prod.snd h').symm
        subst hs1; subst hc1
        exact ⟨hnd, hinv, fun _ => rfl, fun hx => absurd rfl hx⟩
      · have hfresh : ∀ q ∈ visList s, q.1 ≠ n := by
          intro q hq hc
          apply hfreshName
          rw [← visList_names, ← hc]
          exact List.mem_map_of_mem Prod.fst hq
        have hnd1 : ((visList s).map Prod.fst).Nodup := by
          rw [visList_names]; exact hnd
        obtain ⟨k1, k2, k3, k4, k5⟩ := after_name_success settings fp.stem n
          imp created s s himp (fun p hp => hp) (fun p hp _ => hp) hfresh
          hnd1 hinv
        have hs1 : s' = (process_pipeline_after_name settings fp.stem n imp
            created s).1 := (congrArg Prod.fst h').symm
        have hcc : (process_pipeline_after_name settings fp.stem n imp
            created s).2 = created' := congrArg Prod.snd h'
        have hc1 : created' = created ++ [n] := by rw [← hcc]; exact k2
        subst hs1
        refine ⟨by rw [visList_names] at k1; exact k1, ?_,
          fun hx => absurd hx himp, fun _ => ⟨n, hc1, k3, ?_, k5⟩⟩
        · intro p hp hpc hpl
          rw [hc1] at hpc hpl
          have hlast' : (created ++ [n]).getLast? = some n := by simp
          rw [hlast'] at hpl
          exact k4 p hp hpc (fun hc => hpl (by rw [hc]))
        · intro p hp hpc hpn
          rw [hc1] at hpc
          exact k4 p hp hpc hpn

/-- Replace mode on, every optional stage off. -/
def ceSettings : Settings :=
  { up_axis := "Y", center_pivots := false, use_scale_ref := false,
    ref_obj := none, apply_scale := true, replace_existing := true,
    diffuse_as_emissive := false }

/-- A minimal imported object. -/
def ceObj (n : String) : Obj :=
  { name := n, objType := "MESH", hasData := true, verts := [],
    location := Vec3.zero, rot := Mat3.id, scale := ⟨1, 1, 1⟩,
    parent := none, emptyDisplayType := "" }

/-- The job [A ok, B ok, then a replace-mode file with stem B
whose import yields nothing] from an empty scene. -/
def ceRun : Scene × List String :=
  runFiles ceSettings
    [(⟨"A.obj", "A"⟩, [ceObj "AObj"]),
     (⟨"B.obj", "B"⟩, [ceObj "BObj"]),
     (⟨"B.obj", "B"⟩, [])]
    ⟨[], [], []⟩ []

/-- C1 counterexample.  After the third pipeline run of `ceRun` the
created-container list is [A, B], so the most recently created
container is B — but the scene's only remaining collection row is
(A, hidden): the replace-mode run deleted collection B before
its import came back empty, so no job-created container is visible at
all, refuting "exactly the most recently created container is visible
and every earlier container created by the job is hidden" as stated. -/
theorem claim_C1_counterexample :
    ceRun.2.getLast? = some "B" ∧ visList ceRun.1 = [("A", false)] :=
  ⟨rfl, rfl⟩

def wScene : Scene := ⟨[], [], []⟩

def wRes : Scene × List String :=
  process_pipeline_after_name ceSettings "A" "A" [ceObj "AObj"] [] wScene

theorem claim_C1_witness :
    wRes.1.colNames.Nodup ∧
    (∀ p ∈ visList wRes.1, p.1 ∈ wRes.2 →
      wRes.2.getLast? ≠ some p.1 → p.2 = false) := by
  have h := claim_C1_visibility_invariant ⟨"A.obj", "A"⟩ ceSettings []
    [ceObj "AObj"] wScene wRes.1 wRes.2 (by simp [wScene, Scene.colNames])
    (by intro p hp; simp [visList, wScene] at hp) rfl
  exact ⟨h.1, h.2.1⟩

/-- C7 (amended).  A file whose import yields no objects aborts the
rest of its pipeline: the created-collections list is unchanged and the
scene is exactly what it was — except that in replace mode the
same-named pre-existing collection was already deleted
before the import ran. -/
theorem claim_C7_empty_import_abort (fp : FPath) (settings : Settings)
    (created : List String) (s s' : Scene) (created' : List String)
    (h : process_single_obj fp settings created [] s =
      Except.ok (s', created')) :
    created' = created ∧
    (s' = s ∨ (settings.replace_existing = true ∧ fp.stem ∈ s.colNames ∧
      s' = delete_collection_recursive fp.stem s)) := by
  unfold process_single_obj at h
  by_cases hrep : settings.replace_existing = true ∧ fp.stem ∈ s.colNames
  · rw [if_pos hrep, after_name_empty] at h
    have h' := Except.ok.inj h
    exact ⟨(congrArg Prod.snd h').symm, Or.inr ⟨hrep.1, hrep.2,
      (congrArg Prod.fst h').symm⟩⟩
  · rw [if_neg hrep] at h
    cases hu : unique_collection_name s.colNames fp.stem with
    | error e => rw [hu] at h; cases h
    | ok n =>
      rw [hu] at h
      have h' := Except.ok.inj h
      rw [after_name_empty] at h'
      exact ⟨(congrArg Prod.snd h').symm, Or.inl (congrArg Prod.fst h').symm⟩

def sceneC7 : Scene := ⟨[⟨"B", true, []⟩], [], []⟩

/-- C7 counterexample.  In replace mode, a file with stem B whose
empty import still deletes the pre-existing collection B: a
side effect beyond the import itself, refuting "no side effects beyond
the import itself" as stated. -/
theorem claim_C7_counterexample :
    process_single_obj ⟨"B.obj", "B"⟩ ceSettings [] [] sceneC7 =
      Except.ok (delete_collection_recursive "B" sceneC7, []) ∧
    "B" ∈ sceneC7.colNames ∧
    "B" ∉ (delete_collection_recursive "B" sceneC7).colNames := by
  refine ⟨rfl, by decide, by decide⟩

theorem claim_C7_witness :
    ([] : List String) = ([] : List String) ∧
    (delete_collection_recursive "B" sceneC7 = sceneC7 ∨
      (ceSettings.replace_existing = true ∧ "B" ∈ sceneC7.colNames ∧
        delete_collection_recursive "B" sceneC7 =
          delete_collection_recursive "B" sceneC7)) :=
  claim_C7_empty_import_abort ⟨"B.obj", "B"⟩ ceSettings [] sceneC7
    (delete_collection_recursive "B" sceneC7) [] rfl

/-! ## C3 / C4 / C8 / C9 / C10: the modal driver -/

/-- C3.  Per-file error containment: on a TIMER tick with files left,
the handler returns `PASS_THROUGH` (the batch loop survives), the
cursor advances by one, an exception from the per-file pipeline is
recorded as "file name: message" on the error list, and a normal
pipeline result is adopted with the error list untouched — for every
pipeline, i.e. whatever exception the per-file work raises. -/
theorem claim_C3_error_containment (pipeline : Pipeline) (st : DriverState)
    (h : st.index < st.total) :
    (modal pipeline Event.TIMER st).1 = OpResult.PASS_THROUGH ∧
    (modal pipeline Event.TIMER st).2.index = st.index + 1 ∧
    (∀ e, pipeline (st.obj_files.getD st.index ⟨"", ""⟩) st.settings
        st.created_collections st.scene = Except.error e →
      (modal pipeline Event.TIMER st).2.errors =
        st.errors ++ [(st.obj_files.getD st.index ⟨"", ""⟩).name ++ ": " ++ e]) ∧
    (∀ r, pipeline (st.obj_files.getD st.index ⟨"", ""⟩) st.settings
        st.created_collections st.scene = Except.ok r →
      (modal pipeline Event.TIMER st).2.errors = st.errors ∧
      (modal pipeline Event.TIMER st).2.scene = r.1 ∧
      (modal pipeline Event.TIMER st).2.created_collections = r.2) := by
  simp only [modal]
  rw [if_neg (not_le.mpr h)]
  split
  · rename_i s2 c2 heq
    refine ⟨rfl, rfl, fun e he => ?_, fun r' hr' => ?_⟩
    · rw [heq] at he; cases he
    · rw [heq] at hr'
      cases hr'
      exact ⟨rfl, rfl, rfl⟩
  · rename_i e heq
    refine ⟨rfl, rfl, fun e' he' => ?_, fun r' hr' => ?_⟩
    · rw [heq] at he'
      cases he'
      rfl
    · rw [heq] at hr'; cases hr'

/-- C9.  The CANCELLED terminal path (ESC) performs no rollback: it is
exactly the `_finish` record update, so it touches only the timer, the
global-undo preference, the running flag, the progress property, and
the report; the scene (collections, pivot empties, imported objects —
including the absence of anything replace-mode deleted), the
created-collections list, and the error list are untouched. -/
theorem claim_C9_cancel_no_rollback (pipeline : Pipeline) (st : DriverState) :
    modal pipeline Event.ESC st =
      (OpResult.FINISHED,
       { st with timerActive := false,
                 use_global_undo := st.undo_was_enabled,
                 running := false, progress := 0,
                 report := some (Report.cancelledRep st.index st.total) }) ∧
    (modal pipeline Event.ESC st).2.scene = st.scene ∧
    (modal pipeline Event.ESC st).2.created_collections =
      st.created_collections ∧
    (modal pipeline Event.ESC st).2.errors = st.errors :=
  ⟨rfl, rfl, rfl, rfl⟩

lemma modal_undo_snapshot (pipeline : Pipeline) (e : Event) (st : DriverState) :
    (modal pipeline e st).2.undo_was_enabled = st.undo_was_enabled := by
  cases e with
  | ESC => rfl
  | OTHER => rfl
  | TIMER =>
    simp only [modal]
    split
    · rfl
    · split <;> rfl

lemma modal_finished (pipeline : Pipeline) (e : Event) (st : DriverState)
    (h : (modal pipeline e st).1 = OpResult.FINISHED) :
    (modal pipeline e st).2.use_global_undo = st.undo_was_enabled ∧
    (modal pipeline e st).2.progress = 0 ∧
    (modal pipeline e st).2.running = false ∧
    (modal pipeline e st).2.timerActive = false := by
  cases e with
  | ESC => exact ⟨rfl, rfl, rfl, rfl⟩
  | OTHER => cases h
  | TIMER =>
    simp only [modal] at h ⊢
    by_cases hle : st.total ≤ st.index
    · rw [if_pos hle] at h ⊢
      exact ⟨rfl, rfl, rfl, rfl⟩
    · rw [if_neg hle] at h
      exfalso
      revert h
      split <;> simp

lemma runEvents_teardown (pipeline : Pipeline) (u : Bool) :
    ∀ (events : List Event) (st stF : DriverState),
      st.undo_was_enabled = u →
      runEvents pipeline events st = (stF, true) →
      stF.use_global_undo = u ∧ stF.progress = 0 ∧
      stF.running = false ∧ stF.timerActive = false := by
  intro events
  induction events with
  | nil =>
    intro st stF _ h
    cases h
  | cons e es ih =>
    intro st stF hu h
    rcases hm : modal pipeline e st with ⟨r, st'⟩
    rw [runEvents, hm] at h
    cases r with
    | FINISHED =>
      have h1 : st' = stF := (Prod.mk.injEq .. ▸ h).1
      have hfin := modal_finished pipeline e st (by rw [hm])
      rw [hm] at hfin
      subst h1
      rw [hu] at hfin
      exact hfin
    | RUNNING_MODAL =>
      refine ih st' stF ?_ h
      have := modal_undo_snapshot pipeline e st
      rw [hm] at this
      rw [this, hu]
    | CANCELLED =>
      refine ih st' stF ?_ h
      have := modal_undo_snapshot pipeline e st
      rw [hm] at this
      rw [this, hu]
    | PASS_THROUGH =>
      refine ih st' stF ?_ h
      have := modal_undo_snapshot pipeline e st
      rw [hm] at this
      rw [this, hu]

/-- C4.  Terminal teardown: however a started job terminates (ESC or
all files processed, after any event sequence and with any per-file
pipeline — so regardless of accumulated errors), the final state has
the timer removed, the global-undo preference restored to the exact
value it had before `invoke` captured it, progress reset to 0, and the
running flag cleared. -/
theorem claim_C4_teardown (pipeline : Pipeline) (folder_is_valid : Bool)
    (files : List FPath) (st0 st1 : DriverState)
    (hinv : invoke folder_is_valid files st0 = (OpResult.RUNNING_MODAL, st1)) :
    ∀ (events : List Event) (stF : DriverState),
      runEvents pipeline events st1 = (stF, true) →
      stF.use_global_undo = st0.use_global_undo ∧ stF.progress = 0 ∧
      stF.running = false ∧ stF.timerActive = false := by
  have hu : st1.undo_was_enabled = st0.use_global_undo := by
    unfold invoke at hinv
    split_ifs at hinv with h1 h2 h3
    · cases (Prod.mk.injEq .. ▸ hinv).1
    · cases (Prod.mk.injEq .. ▸ hinv).1
    · cases (Prod.mk.injEq .. ▸ hinv).1
    · rw [Prod.mk.injEq] at hinv
      rw [← hinv.2]
  intro events stF h
  exact runEvents_teardown pipeline st0.use_global_undo events st1 stF hu h

lemma setProps_setProps (p q : Props) (st : DriverState) :
    setProps q (setProps p st) = setProps q st := rfl

/-- The modal handler never reads the live UI properties: running it on
a state whose properties were edited is the same run with the edit
carried along untouched. -/
lemma modal_setProps (pipeline : Pipeline) (e : Event) (st : DriverState)
    (p : Props) :
    modal pipeline e (setProps p st) =
      ((modal pipeline e st).1, setProps p (modal pipeline e st).2) := by
  cases e with
  | ESC => rfl
  | OTHER => rfl
  | TIMER =>
    simp only [modal, setProps]
    by_cases hle : st.total ≤ st.index
    · rw [if_pos hle, if_pos hle]
      rfl
    · rw [if_neg hle, if_neg hle]
      cases hr : pipeline (st.obj_files.getD st.index ⟨"", ""⟩) st.settings
          st.created_collections st.scene with
      | ok r =>
        obtain ⟨s2, c2⟩ := r
        simp only [hr]
      | error e => simp only [hr]

lemma runActions_setProps (pipeline : Pipeline) :
    ∀ (acts : List UserAction) (st : DriverState) (p : Props),
      jobView (runActions pipeline acts (setProps p st)) =
        jobView (runActions pipeline acts st) := by
  intro acts
  induction acts with
  | nil => intro st p; rfl
  | cons a rest ih =>
    intro st p
    cases a with
    | edit q =>
      show jobView (runActions pipeline rest (setProps q (setProps p st))) =
        jobView (runActions pipeline rest (setProps q st))
      rw [setProps_setProps]
    | host e =>
      rcases hm : modal pipeline e st with ⟨r, st'⟩
      simp only [runActions, modal_setProps, hm]
      cases r with
      | FINISHED => rfl
      | RUNNING_MODAL => exact ih st' p
      | CANCELLED => exact ih st' p
      | PASS_THROUGH => exact ih st' p

lemma runActions_eventsOf (pipeline : Pipeline) :
    ∀ (acts : List UserAction) (st : DriverState),
      jobView (runActions pipeline acts st) =
        jobView (runEvents pipeline (eventsOf acts) st).1 := by
  intro acts
  induction acts with
  | nil => intro st; rfl
  | cons a rest ih =>
    intro st
    cases a with
    | edit q =>
      show jobView (runActions pipeline rest (setProps q st)) =
        jobView (runEvents pipeline (eventsOf rest) st).1
      rw [runActions_setProps]
      exact ih st
    | host e =>
      rcases hm : modal pipeline e st with ⟨r, st'⟩
      simp only [runActions, runEvents, eventsOf, hm]
      cases r with
      | FINISHED => rfl
      | RUNNING_MODAL => exact ih st'
      | CANCELLED => exact ih st'
      | PASS_THROUGH => exact ih st'

/-- C8.  Settings-snapshot noninterference: the job part of the driver
state (files, cursor, errors, captured settings, created collections,
scene, progress, report, …) evolves identically under any two action
streams with the same host events, no matter how the live UI
properties are edited mid-job and no matter how they differ — the
per-file pipeline reads only the settings captured at job start. -/
theorem claim_C8_settings_noninterference (pipeline : Pipeline)
    (acts1 acts2 : List UserAction) (st : DriverState) (p : Props)
    (hev : eventsOf acts1 = eventsOf acts2) :
    jobView (runActions pipeline acts1 st) =
      jobView (runActions pipeline acts2 (setProps p st)) := by
  rw [runActions_setProps, runActions_eventsOf, runActions_eventsOf, hev]

/-- A driver state at rest, with global undo enabled. -/
def st0W : DriverState :=
  { obj_files := [], index := 0, total := 0, errors := [],
    settings := ceSettings, created_collections := [],
    undo_was_enabled := true, scene := wScene, props := defaultProps,
    use_global_undo := true, progress := 0, running := false,
    timerActive := false, report := none }

/-- The state `invoke` builds for a one-file job from `st0W`. -/
def st1W : DriverState := (invoke true [⟨"A.obj", "A"⟩] st0W).2

/-- A per-file pipeline that always raises. -/
def pipelineFail : Pipeline := fun _ _ _ _ => Except.error "boom"

theorem claim_C3_witness :
    (modal pipelineFail Event.TIMER st1W).1 = OpResult.PASS_THROUGH ∧
    (modal pipelineFail Event.TIMER st1W).2.index = st1W.index + 1 ∧
    (modal pipelineFail Event.TIMER st1W).2.errors =
      st1W.errors ++ ["A.obj" ++ ": " ++ "boom"] := by
  have h := claim_C3_error_containment pipelineFail st1W (by decide)
  exact ⟨h.1, h.2.1, h.2.2.1 "boom" rfl⟩

theorem claim_C4_witness :
    (runEvents (pipelineOf fun _ => []) [Event.ESC] st1W).1.use_global_undo =
      st0W.use_global_undo ∧
    (runEvents (pipelineOf fun _ => []) [Event.ESC] st1W).1.progress = 0 ∧
    (runEvents (pipelineOf fun _ => []) [Event.ESC] st1W).1.running = false ∧
    (runEvents (pipelineOf fun _ => []) [Event.ESC] st1W).1.timerActive =
      false :=
  claim_C4_teardown (pipelineOf fun _ => []) true [⟨"A.obj", "A"⟩] st0W st1W
    rfl [Event.ESC] _ rfl

theorem claim_C8_witness :
    jobView (runActions (pipelineOf fun _ => [])
        [UserAction.host Event.TIMER] st1W) =
      jobView (runActions (pipelineOf fun _ => [])
        [UserAction.edit defaultProps, UserAction.host Event.TIMER]
        (setProps defaultProps st1W)) :=
  claim_C8_settings_noninterference (pipelineOf fun _ => [])
    [UserAction.host Event.TIMER]
    [UserAction.edit defaultProps, UserAction.host Event.TIMER] st1W
    defaultProps rfl

/-- C10.  The FINISHED summary reports `total - len(errors)` files as
imported; and a file whose import yields zero objects adds neither an
error nor a collection, so the one-file job `st1W` run with an
empty-import oracle reports "1 OBJ(s) imported" while zero collections
were created. -/
theorem claim_C10_success_count (pipeline : Pipeline) (st : DriverState) :
    (st.total ≤ st.index →
      (modal pipeline Event.TIMER st).2.report =
        some (Report.finishedRep (st.total - st.errors.length)
          st.errors.length)) ∧
    ((runEvents (pipelineOf fun _ => [])
        [Event.TIMER, Event.TIMER] st1W).1.report =
      some (Report.finishedRep 1 0) ∧
     (runEvents (pipelineOf fun _ => [])
        [Event.TIMER, Event.TIMER] st1W).1.created_collections = [] ∧
     (runEvents (pipelineOf fun _ => [])
        [Event.TIMER, Event.TIMER] st1W).1.errors = []) := by
  constructor
  · intro hle
    simp only [modal]
    rw [if_pos hle]
    rfl
  · exact ⟨rfl, rfl, rfl⟩

theorem claim_C10_witness :
    (modal pipelineFail Event.TIMER st0W).2.report =
      some (Report.finishedRep (st0W.total - st0W.errors.length)
        st0W.errors.length) :=
  (claim_C10_success_count pipelineFail st0W).1 (by decide)

end AutoIngest
